import Mathlib

/-!
# triangle-shooter: kinematics, controls, projectiles and the viewport transform

A shallow embedding of `main.cpp`.

* The definitions are written over a type `α` with the arithmetic operations and the
  comparison that the code uses. Two readings of the C++ `double` instantiate it:
  `ℝ` (exact arithmetic) and `double` (binary64 values, every operation rounded to
  nearest, ties to even). Not-a-number, infinities and overflow are outside both.
* The `<cmath>` functions `cos`, `sin` and `sqrt` are arguments of the
  definitions that call them; over `ℝ` the theorems pass `Real.cos`, `Real.sin`,
  `Real.sqrt`, over `double` the correctly rounded `double.sqrt` and the values of the C
  library's `cos` and `sin` at the headings of the examples.
* A C++ `int` is a 32-bit two's complement integer; the conversion
  `(int) d` of a `double` is defined only when the truncated value fits.
* Functions that write through a pointer return the new value of every object they
  receive by pointer.
-/

namespace TriangleShooter

/-! ## Data model -/

/-- Three doubles `x`, `y`, `z` (`struct vector3d`). -/
structure vector3d (α : Type) where
  x : α
  y : α
  z : α
deriving DecidableEq

/-- Position, velocity and acceleration (`struct entity`). -/
structure entity (α : Type) where
  pos : vector3d α
  vel : vector3d α
  acc : vector3d α
deriving DecidableEq

section Arithmetic

variable {α : Type} [Zero α] [One α] [NatCast α] [IntCast α] [Add α] [Sub α] [Mul α] [Div α]
  [Neg α] [LT α] [DecidableRel (α := α) (· < ·)]

/-- The default constructor `vector3d()`: all components `0.0`. -/
def vector3d.zero : vector3d α := ⟨0, 0, 0⟩

/-- Componentwise sum, `operator +(vector3d const&)`. -/
def vector3d.add (v vec : vector3d α) : vector3d α :=
  ⟨v.x + vec.x, v.y + vec.y, v.z + vec.z⟩

/-- Componentwise difference, `operator -(vector3d const&)`. -/
def vector3d.sub (v vec : vector3d α) : vector3d α :=
  ⟨v.x - vec.x, v.y - vec.y, v.z - vec.z⟩

/-- Scaling, `operator *(const double)`. -/
def vector3d.scale (v : vector3d α) (scalar : α) : vector3d α :=
  ⟨v.x * scalar, v.y * scalar, v.z * scalar⟩

/-- Division by a scalar, `operator /(const double)`. -/
def vector3d.div (v : vector3d α) (scalar : α) : vector3d α :=
  ⟨v.x / scalar, v.y / scalar, v.z / scalar⟩

/-- Dot product, `operator *(vector3d const&)`. -/
def vector3d.dot (v vec : vector3d α) : α :=
  v.x * vec.x + v.y * vec.y + v.z * vec.z

/-- Euclidean norm of all three components, `vector3d::mag`. -/
def vector3d.mag (sqrt : α → α) (v : vector3d α) : α :=
  sqrt (v.x * v.x + v.y * v.y + v.z * v.z)

/-- Counter-clockwise rotation of the `(x, y)` part, `vector3d::rotate`. -/
def vector3d.rotate (cos sin : α → α) (v : vector3d α) (theta : α) : vector3d α :=
  ⟨v.x * cos theta - v.y * sin theta, v.x * sin theta + v.y * cos theta, v.z⟩

/-- One integration step, `entity::act`: `pos = pos + vel * dt; vel = vel + acc * dt;`.
The second assignment reads the `pos`-independent fields `vel` and `acc`, and the first
one has already used the old `vel`. -/
def entity.act (e : entity α) (dt : α) : entity α :=
  let pos := e.pos.add (e.vel.scale dt)
  let vel := e.vel.add (e.acc.scale dt)
  ⟨pos, vel, e.acc⟩

/-! ### Viewport and the world-to-screen transform -/

/-- Camera entity and the window size in pixels (`struct viewport`); `w` and `h` are
C++ `int`s. -/
structure viewport (α : Type) where
  e : entity α
  w : Int
  h : Int

/-- Smallest value of a 32-bit `int`. -/
def INT_MIN : Int := -2147483648

/-- Largest value of a 32-bit `int`. -/
def INT_MAX : Int := 2147483647

/-- The integer obtained from `d` by discarding its fractional part (toward zero), for
values of an ordered ring with a floor function. -/
def trunc {β : Type} [LinearOrderedRing β] [FloorRing β] (d : β) : Int :=
  if 0 ≤ d then ⌊d⌋ else ⌈d⌉

/-- The conversion `(int) d`: the truncated value when an `int` can hold it, and no
defined result otherwise; `trunc` discards the fractional part of a value of `α`. -/
def double_to_int (trunc : α → Int) (d : α) : Option Int :=
  if INT_MIN ≤ trunc d ∧ trunc d ≤ INT_MAX then some (trunc d) else none

/-- World position to SDL surface coordinates, `cart2sdl`; the pair is `(*x, *y)`. The
`int` fields `w` and `h` and the literal `2` are converted to `double`. -/
def cart2sdl (trunc : α → Int) (vp : viewport α) (pos : vector3d α) : Option (Int × Int) :=
  let corrected := pos.sub vp.e.pos
  match double_to_int trunc (corrected.x + (vp.w : α) / ((2 : Nat) : α)) with
  | none => none
  | some x =>
    match double_to_int trunc ((vp.h : α) / ((2 : Nat) : α) - corrected.y) with
    | none => none
    | some y => some (x, y)

/-! ### Controls -/

/-- The control values of `enum control`. -/
inductive control where
  | CTRL_NONE
  | CTRL_FORWARD
  | CTRL_BACKWARD
  | CTRL_TURN_L
  | CTRL_TURN_R
  | CTRL_FIRE
deriving DecidableEq

/-- Forward acceleration magnitude `F_ACC_MAG`. -/
def F_ACC_MAG : α := ((100 : Nat) : α)

/-- Backward acceleration magnitude `B_ACC_MAG`. -/
def B_ACC_MAG : α := ((100 : Nat) : α)

/-- Turning acceleration magnitude `T_ACC_MAG`. -/
def T_ACC_MAG : α := ((10 : Nat) : α)

/-- Control to acceleration, `handle_controls`: `e->acc` is reset, then written according
to the control; the result is the new `*e`. -/
def handle_controls (cos sin : α → α) (e : entity α) (c : control) : entity α :=
  let e : entity α := ⟨e.pos, e.vel, vector3d.zero⟩
  match c with
  | control.CTRL_FORWARD =>
    ⟨e.pos, e.vel, ⟨F_ACC_MAG * cos e.pos.z, F_ACC_MAG * sin e.pos.z, e.acc.z⟩⟩
  | control.CTRL_BACKWARD =>
    ⟨e.pos, e.vel, ⟨-B_ACC_MAG * cos e.pos.z, -B_ACC_MAG * sin e.pos.z, e.acc.z⟩⟩
  | control.CTRL_TURN_L =>
    ⟨e.pos, e.vel, ⟨e.acc.x, e.acc.y, T_ACC_MAG⟩⟩
  | control.CTRL_TURN_R =>
    ⟨e.pos, e.vel, ⟨e.acc.x, e.acc.y, -T_ACC_MAG⟩⟩
  | _ => e

/-- Velocity cap on `x`, `X_VEL_CAP`. -/
def X_VEL_CAP : α := ((400 : Nat) : α)

/-- Velocity cap on `y`, `Y_VEL_CAP`. -/
def Y_VEL_CAP : α := ((400 : Nat) : α)

/-- Velocity cap on `z`, `Z_VEL_CAP`. -/
def Z_VEL_CAP : α := ((5 : Nat) : α)

/-- Velocity cap, `cap_vel`: one `if / else if` chain over the six bounds; the result is
the new `*e`. -/
def cap_vel (e : entity α) : entity α :=
  if e.vel.x > X_VEL_CAP then ⟨e.pos, ⟨X_VEL_CAP, e.vel.y, e.vel.z⟩, e.acc⟩
  else if e.vel.x < -X_VEL_CAP then ⟨e.pos, ⟨-X_VEL_CAP, e.vel.y, e.vel.z⟩, e.acc⟩
  else if e.vel.y > Y_VEL_CAP then ⟨e.pos, ⟨e.vel.x, Y_VEL_CAP, e.vel.z⟩, e.acc⟩
  else if e.vel.y < -Y_VEL_CAP then ⟨e.pos, ⟨e.vel.x, -Y_VEL_CAP, e.vel.z⟩, e.acc⟩
  else if e.vel.z > Z_VEL_CAP then ⟨e.pos, ⟨e.vel.x, e.vel.y, Z_VEL_CAP⟩, e.acc⟩
  else if e.vel.z < -Z_VEL_CAP then ⟨e.pos, ⟨e.vel.x, e.vel.y, -Z_VEL_CAP⟩, e.acc⟩
  else e

/-! ### Projectiles -/

/-- An entity and the distance it has travelled (`struct projectile`). -/
structure projectile (α : Type) where
  e : entity α
  d : α
deriving DecidableEq

/-- One step of a projectile, `projectile::act`: the planar part of the current velocity,
scaled by `dt`, adds its magnitude to `d`; then the entity is integrated. -/
def projectile.act (sqrt : α → α) (p : projectile α) (dt : α) : projectile α :=
  let vel := p.e.vel
  let vel : vector3d α := ⟨vel.x, vel.y, 0⟩
  let vel := vel.scale dt
  let d := p.d + vel.mag sqrt
  ⟨p.e.act dt, d⟩

/-- The shape tag of a renderable (`renderable::type`). -/
inductive renderable_type where
  | PLAYER
  | PROJECTILE
deriving DecidableEq

/-- What a `const entity *` of a renderable refers to: the player object, or the entity of
the element stored at offset `slot` of the projectile vector. -/
inductive entity_ptr where
  | player
  | proj_slot (slot : Nat)
deriving DecidableEq

/-- A reference to an entity with its shape tag (`struct renderable`). -/
structure renderable where
  e : entity_ptr
  t : renderable_type
deriving DecidableEq

/-- Muzzle speed `FIRE_VEL`; `spawn_projectile` writes the same value as the literal
`100.0`. -/
def FIRE_VEL : α := ((100 : Nat) : α)

/-- Spawning, `spawn_projectile`: the new projectile copies `*src`, loses its turning
velocity and its acceleration, gains the muzzle velocity along the heading `src->pos.z`,
and is pushed at the back of both lists. The triple is the new `(*src, *proj_list,
*render_list)`. -/
def spawn_projectile (cos sin : α → α) (src : entity α) (proj_list : List (projectile α))
    (render_list : List renderable) : entity α × List (projectile α) × List renderable :=
  let add_vel : vector3d α :=
    ⟨((100 : Nat) : α) * cos src.pos.z, ((100 : Nat) : α) * sin src.pos.z, 0⟩
  let e : entity α := src
  let e : entity α := ⟨e.pos, ⟨e.vel.x, e.vel.y, 0⟩, e.acc⟩
  let e : entity α := ⟨e.pos, e.vel, vector3d.zero⟩
  let e : entity α := ⟨e.pos, e.vel.add add_vel, e.acc⟩
  let proj : projectile α := ⟨e, 0⟩
  let proj_list := proj_list ++ [proj]
  let render_list :=
    render_list ++ [⟨entity_ptr.proj_slot (proj_list.length - 1), renderable_type.PROJECTILE⟩]
  (src, proj_list, render_list)

/-- The variables of the advance-and-cull loop of `main`: the two vectors and the offsets
of the iterators `proj_it` and `proj_render_it` from the start of their vectors. -/
structure cull_state (α : Type) where
  proj_list : List (projectile α)
  proj_render_list : List renderable
  proj_it : Nat
  proj_render_it : Nat

/-- The loop `while (proj_it != proj_list.end())` of `main`, at most `fuel` iterations.
Each iteration advances the projectile under `proj_it` in place; when its distance is
above `400.0` both vectors erase at their iterator (which then denotes the next element),
otherwise both iterators move on. `proj_it` never passes the end, so `!=` is `<`. -/
def cull_loop (sqrt : α → α) (dt : α) : Nat → cull_state α → cull_state α
  | 0, s => s
  | fuel + 1, s =>
    if h : s.proj_it < s.proj_list.length then
      let p := (s.proj_list.get ⟨s.proj_it, h⟩).act sqrt dt
      let proj_list := s.proj_list.set s.proj_it p
      if p.d > ((400 : Nat) : α) then
        cull_loop sqrt dt fuel
          ⟨proj_list.eraseIdx s.proj_it, s.proj_render_list.eraseIdx s.proj_render_it,
            s.proj_it, s.proj_render_it⟩
      else
        cull_loop sqrt dt fuel
          ⟨proj_list, s.proj_render_list, s.proj_it + 1, s.proj_render_it + 1⟩
    else s

/-- The projectile part of one frame of `main`: both iterators start at `begin()` and the
loop runs until `proj_it` reaches the end; every iteration either erases an element or
moves `proj_it` forward, so `proj_list.length` iterations are enough. -/
def advance_and_cull (sqrt : α → α) (dt : α) (proj_list : List (projectile α))
    (proj_render_list : List renderable) : cull_state α :=
  cull_loop sqrt dt proj_list.length ⟨proj_list, proj_render_list, 0, 0⟩

/-! ### Rendering: the world points of the shapes -/

/-- The four world points `(t, b, l, r)` that `render_player` computes before converting
them with `cart2sdl`. -/
def render_player_points (cos sin : α → α) (pos : vector3d α) :
    vector3d α × vector3d α × vector3d α × vector3d α :=
  let t : vector3d α := vector3d.zero
  let t : vector3d α := ⟨((5 : Nat) : α), t.y, t.z⟩
  let t : vector3d α := ⟨t.x, 0, t.z⟩
  let b : vector3d α := vector3d.zero
  let b : vector3d α := ⟨-((5 : Nat) : α), b.y, b.z⟩
  let b : vector3d α := ⟨b.x, 0, b.z⟩
  let l : vector3d α := vector3d.zero
  let l : vector3d α := ⟨-((5 : Nat) : α), l.y, l.z⟩
  let l : vector3d α := ⟨l.x, ((5 : Nat) : α), l.z⟩
  let r : vector3d α := vector3d.zero
  let r : vector3d α := ⟨-((5 : Nat) : α), r.y, r.z⟩
  let r : vector3d α := ⟨r.x, -((5 : Nat) : α), r.z⟩
  let t := pos.add (t.rotate cos sin pos.z)
  let b := pos.add (b.rotate cos sin pos.z)
  let l := pos.add (l.rotate cos sin pos.z)
  let r := pos.add (r.rotate cos sin pos.z)
  (t, b, l, r)

/-- The two world points `(t, b)` that `render_projectile` computes and passes, in this
order, to `cart2sdl`. The source reads
`vector3d t; t.x = 5.0; t.y = 0.0; vector3d b; t.x = -5.0; t.y = 0.0;`:
the second pair of assignments writes `t` again and `b` keeps its constructed value. -/
def render_projectile_points (cos sin : α → α) (pos : vector3d α) : vector3d α × vector3d α :=
  let t : vector3d α := vector3d.zero
  let t : vector3d α := ⟨((5 : Nat) : α), t.y, t.z⟩
  let t : vector3d α := ⟨t.x, 0, t.z⟩
  let b : vector3d α := vector3d.zero
  let t : vector3d α := ⟨-((5 : Nat) : α), t.y, t.z⟩
  let t : vector3d α := ⟨t.x, 0, t.z⟩
  let t := pos.add (t.rotate cos sin pos.z)
  let b := pos.add (b.rotate cos sin pos.z)
  (t, b)

/-- The points handed to `SDL_RenderDrawLines` by `render_projectile`. -/
def render_projectile (trunc : α → Int) (cos sin : α → α) (vp : viewport α)
    (pos : vector3d α) : Option (List (Int × Int)) :=
  let tb := render_projectile_points cos sin pos
  match cart2sdl trunc vp tb.1 with
  | none => none
  | some p0 =>
    match cart2sdl trunc vp tb.2 with
    | none => none
    | some p1 => some [p0, p1]

/-! ### Input -/

/-- The five entries of the SDL keyboard state that `key2ctrl` reads (`true`: non-zero). -/
structure key_states where
  SDL_SCANCODE_W : Bool
  SDL_SCANCODE_S : Bool
  SDL_SCANCODE_A : Bool
  SDL_SCANCODE_D : Bool
  SDL_SCANCODE_SPACE : Bool
deriving DecidableEq

/-- Keyboard state to control, `key2ctrl`. -/
def key2ctrl (keyStates : key_states) : control :=
  if keyStates.SDL_SCANCODE_W then control.CTRL_FORWARD
  else if keyStates.SDL_SCANCODE_S then control.CTRL_BACKWARD
  else if keyStates.SDL_SCANCODE_A then control.CTRL_TURN_L
  else if keyStates.SDL_SCANCODE_D then control.CTRL_TURN_R
  else if keyStates.SDL_SCANCODE_SPACE then control.CTRL_FIRE
  else control.CTRL_NONE

/-- The kinds of event that the `switch` of `main` tells apart. -/
inductive event_type where
  | SDL_QUIT
  | SDL_KEYDOWN
  | SDL_KEYUP
  | other
deriving DecidableEq

/-- What one iteration of the loop of `main` reads from SDL: the value of `get_time()`, the
event delivered by `SDL_PollEvent` (`none`: no event pending) and the keyboard state seen
by `key2ctrl`. -/
structure frame_input (α : Type) where
  time : α
  event : Option event_type
  keyStates : key_states

/-! ### The frame loop of `main` -/

/-- The variables of `main` that live across iterations. -/
structure main_state (α : Type) where
  player : entity α
  player_ctrl : control
  proj_list : List (projectile α)
  ship_render_list : List renderable
  proj_render_list : List renderable
  t : α
  t_fire : α
  dt : α

/-- The state of `main` on entering the loop, `t0` being the first `get_time()`; `dt` is
assigned in every iteration before it is read. -/
def main_init (t0 : α) : main_state α :=
  ⟨⟨vector3d.zero, vector3d.zero, vector3d.zero⟩, control.CTRL_NONE, [],
    [⟨entity_ptr.player, renderable_type.PLAYER⟩], [], t0, 0, 0⟩

/-- The event check of `main`: the new `player_ctrl`, or `none` for `goto cleanup`. -/
def poll_event (player_ctrl : control) (event : Option event_type) (keyStates : key_states) :
    Option control :=
  match event with
  | none => some player_ctrl
  | some event_type.SDL_QUIT => none
  | some event_type.SDL_KEYDOWN => some (key2ctrl keyStates)
  | some event_type.SDL_KEYUP => some (key2ctrl keyStates)
  | some event_type.other => some player_ctrl

/-- The fire timer of `main`: the new `(player_ctrl, t_fire)`. -/
def fire_timer (t t_fire : α) (player_ctrl : control) : control × α :=
  if player_ctrl = control.CTRL_FIRE then
    if t - t_fire < 1 then (control.CTRL_NONE, t_fire) else (player_ctrl, t)
  else (player_ctrl, t_fire)

/-- The first half of an iteration of `main`: time update, event check, fire timer,
`handle_controls` and, when the control is still `CTRL_FIRE`, `spawn_projectile`. -/
def frame_controls (cos sin : α → α) (s : main_state α) (inp : frame_input α) :
    Option (main_state α) :=
  let t_new := inp.time
  let dt := t_new - s.t
  let t := t_new
  match poll_event s.player_ctrl inp.event inp.keyStates with
  | none => none
  | some player_ctrl =>
    let g := fire_timer t s.t_fire player_ctrl
    let player := handle_controls cos sin s.player g.1
    if g.1 = control.CTRL_FIRE then
      let r := spawn_projectile cos sin player s.proj_list s.proj_render_list
      some ⟨r.1, g.1, r.2.1, s.ship_render_list, r.2.2, t, g.2, dt⟩
    else
      some ⟨player, g.1, s.proj_list, s.ship_render_list, s.proj_render_list, t, g.2, dt⟩

/-- The second half of an iteration of `main`: the player acts and is capped, then the
projectiles are advanced and culled. -/
def frame_act (sqrt : α → α) (s : main_state α) : main_state α :=
  let player := cap_vel (s.player.act s.dt)
  let c := advance_and_cull sqrt s.dt s.proj_list s.proj_render_list
  ⟨player, s.player_ctrl, c.proj_list, s.ship_render_list, c.proj_render_list, s.t, s.t_fire,
    s.dt⟩

/-- One iteration of the loop of `main`; `none` when the loop is left for `cleanup`. -/
def frame (cos sin sqrt : α → α) (s : main_state α) (inp : frame_input α) :
    Option (main_state α) :=
  match frame_controls cos sin s inp with
  | none => none
  | some s1 => some (frame_act sqrt s1)

/-- The loop of `main` over the inputs of successive iterations; it stops at the first
quit event. -/
def run (cos sin sqrt : α → α) : List (frame_input α) → main_state α → main_state α
  | [], s => s
  | inp :: rest, s =>
    match frame cos sin sqrt s inp with
    | none => s
    | some s1 => run cos sin sqrt rest s1

/-- The number of projectiles pushed by the iteration that reads `inp` in state `s`: the
growth of `proj_list` over the first half of the iteration. -/
def spawn_count (cos sin : α → α) (s : main_state α) (inp : frame_input α) : Nat :=
  match frame_controls cos sin s inp with
  | none => 0
  | some s1 => s1.proj_list.length - s.proj_list.length

/-- The times of the iterations, in order, in which a projectile is pushed. -/
def spawn_times (cos sin sqrt : α → α) : List (frame_input α) → main_state α → List α
  | [], _ => []
  | inp :: rest, s =>
    match frame cos sin sqrt s inp with
    | none => []
    | some s1 =>
      if spawn_count cos sin s inp = 0 then spawn_times cos sin sqrt rest s1
      else inp.time :: spawn_times cos sin sqrt rest s1

/-- The times of the iterations, in order, in which the control that reaches the fire timer
(the stored control, or the one read by `key2ctrl` on a key event) is `CTRL_FIRE`. -/
def fire_times (cos sin sqrt : α → α) : List (frame_input α) → main_state α → List α
  | [], _ => []
  | inp :: rest, s =>
    match frame cos sin sqrt s inp with
    | none => []
    | some s1 =>
      if poll_event s.player_ctrl inp.event inp.keyStates = some control.CTRL_FIRE then
        inp.time :: fire_times cos sin sqrt rest s1
      else fire_times cos sin sqrt rest s1

/-- The fire timer of `main` applied in turn to `CTRL_FIRE` controls arriving at the given
times, starting from the last-shot time `t_fire`: the times at which the control passes. -/
def gate_filter : α → List α → List α
  | _, [] => []
  | t_fire, t :: ts =>
    if (fire_timer t t_fire control.CTRL_FIRE).1 = control.CTRL_FIRE then
      t :: gate_filter (fire_timer t t_fire control.CTRL_FIRE).2 ts
    else gate_filter (fire_timer t t_fire control.CTRL_FIRE).2 ts

/-- The pairing that `render` relies on when it reads `r.e->pos`: the renderable at index
`i` of the projectile render list refers to the storage of element `i` of the projectile
vector, and there are as many renderables as projectiles. -/
def render_refs_live (s : main_state α) : Prop :=
  s.proj_render_list.map (fun r => r.e) =
    (List.range s.proj_list.length).map entity_ptr.proj_slot

/-- The input of an iteration at time `t` that receives a key-down event while SPACE is the
only key pressed, so that `key2ctrl` answers `CTRL_FIRE`. -/
def fire_input (t : α) : frame_input α :=
  ⟨t, some event_type.SDL_KEYDOWN, ⟨false, false, false, false, true⟩⟩

/-- The input of an iteration at time `t` in which `SDL_PollEvent` finds no event; the
keyboard state `k` is then not read. -/
def idle_input (t : α) (k : key_states) : frame_input α :=
  ⟨t, none, k⟩

end Arithmetic

/-! ### Binary64 arithmetic

The type `double` instantiates the definitions above with IEEE 754 binary64 arithmetic in
the default rounding mode: every sum, difference, product, quotient, conversion and square
root is the exact result rounded to the nearest representable value, ties to even. A value
is given by the rational it denotes. Infinities, not-a-number, the sign of zero and
overflow are outside the model. -/

/-- The number of halvings that bring `n` below `2`: `floor (log2 n)` for `n >= 1`, given at
least that much `fuel`. -/
def log2_fuel : Nat → Nat → Nat
  | 0, _ => 0
  | fuel + 1, n => if 2 ≤ n then log2_fuel fuel (n / 2) + 1 else 0

/-- The exponent `e` with `2^e <= |q| < 2^(e+1)`, for `q` not `0`. -/
def ilog2 (q : ℚ) : Int :=
  let e0 : Int :=
    (log2_fuel q.num.natAbs q.num.natAbs : Int) - (log2_fuel q.den q.den : Int)
  if (2 : ℚ) ^ e0 ≤ |q| then e0 else e0 - 1

/-- The integer nearest to `m`, the even one of the two when `m` lies half way. -/
def round_half_even (m : ℚ) : Int :=
  if m - (⌊m⌋ : ℚ) < 1 / 2 then ⌊m⌋
  else if 1 / 2 < m - (⌊m⌋ : ℚ) then ⌊m⌋ + 1
  else if ⌊m⌋ % 2 = 0 then ⌊m⌋ else ⌊m⌋ + 1

/-- The binary64 value nearest to `q` (53 significant bits, least exponent `-1022`, ties to
even). -/
def rnd64 (q : ℚ) : ℚ :=
  if q = 0 then 0
  else (round_half_even (q / (2 : ℚ) ^ (max (ilog2 q) (-1022) - 52)) : ℚ) *
    (2 : ℚ) ^ (max (ilog2 q) (-1022) - 52)

/-- The integer square root built bit by bit from bit `k - 1` down: the largest `r` extending
the given `r` with `r * r <= n`. -/
def isqrt_bits : Nat → Nat → Nat → Nat
  | 0, r, _ => r
  | k + 1, r, n =>
    if (r + 2 ^ k) * (r + 2 ^ k) ≤ n then isqrt_bits k (r + 2 ^ k) n else isqrt_bits k r n

/-- The floor of the square root of `n`. -/
def isqrt (n : Nat) : Nat :=
  isqrt_bits (log2_fuel n n / 2 + 1) 0 n

/-- The binary64 value nearest to the square root of `q > 0` (ties to even), and `0` for
`q <= 0`: with `p` the exponent of the last place of the root, the root is `k * 2^p` for the
integer `k` nearest to `sqrt (q / 4^p)`. -/
def sqrt64 (q : ℚ) : ℚ :=
  if q ≤ 0 then 0
  else
    let p : Int := Int.fdiv (ilog2 q) 2 - 52
    let t : ℚ := q / (2 : ℚ) ^ (2 * p)
    let k : Nat := isqrt ⌊t⌋.toNat
    let h : ℚ := ((k : ℚ) + 1 / 2) * ((k : ℚ) + 1 / 2)
    let r : Nat := if t < h then k else if h < t then k + 1 else if k % 2 = 0 then k else k + 1
    (r : ℚ) * (2 : ℚ) ^ p

/-- A finite C++ `double`, given by the rational it denotes. -/
structure double where
  val : ℚ
deriving DecidableEq

instance : Zero double := ⟨⟨0⟩⟩

instance : One double := ⟨⟨1⟩⟩

instance : NatCast double := ⟨fun n => ⟨rnd64 n⟩⟩

instance : IntCast double := ⟨fun n => ⟨rnd64 n⟩⟩

instance : Add double := ⟨fun a b => ⟨rnd64 (a.val + b.val)⟩⟩

instance : Sub double := ⟨fun a b => ⟨rnd64 (a.val - b.val)⟩⟩

instance : Mul double := ⟨fun a b => ⟨rnd64 (a.val * b.val)⟩⟩

instance : Div double := ⟨fun a b => ⟨rnd64 (a.val / b.val)⟩⟩

instance : Neg double := ⟨fun a => ⟨-a.val⟩⟩

instance : LT double := ⟨fun a b => a.val < b.val⟩

instance : DecidableRel (α := double) (· < ·) :=
  fun a b => inferInstanceAs (Decidable (a.val < b.val))

/-- The `<cmath>` function `sqrt` on doubles, correctly rounded. -/
def double.sqrt (d : double) : double := ⟨sqrt64 d.val⟩

/-- The integer part of a double, as taken by the conversion `(int) d`. -/
def double.trunc (d : double) : Int := TriangleShooter.trunc d.val

/-- The values of the C library's `cos` at the two headings used in the examples on
doubles: `cos(0.0) = 1.0` and `cos(2.0) = -0x1.aa22657537205p-2`; no other argument is
used, and `0` stands there. -/
def cos_table (h : double) : double :=
  if h = 0 then 1 else if h = ⟨2⟩ then ⟨-7496634952020485 / 18014398509481984⟩ else 0

/-- The values of the C library's `sin` at the two headings used in the examples on
doubles: `sin(0.0) = 0.0` and `sin(2.0) = 0x1.d18f6ead1b446p-1`; no other argument is
used, and `0` stands there. -/
def sin_table (h : double) : double :=
  if h = 0 then 0 else if h = ⟨2⟩ then ⟨4095111552621091 / 4503599627370496⟩ else 0

/-! ## Theorems -/

/-- Known binary64 values reproduced by the rounding functions: the doubles `0.1`, `0.7`
and `1/3`, the exactness of small integers, a tie resolved to even (`2^53 + 1`), the
correctly rounded `sqrt(2.0)`, an exact root, and the two tabulated values of `cos` and
`sin` at `2.0` being doubles. -/
theorem binary64_samples :
    rnd64 (1 / 10) = 3602879701896397 / 36028797018963968 ∧
    rnd64 (7 / 10) = 3152519739159347 / 4503599627370496 ∧
    rnd64 (1 / 3) = 6004799503160661 / 18014398509481984 ∧
    rnd64 400 = 400 ∧ rnd64 (-5) = -5 ∧
    rnd64 9007199254740993 = 9007199254740992 ∧
    sqrt64 2 = 6369051672525773 / 4503599627370496 ∧
    sqrt64 (1 / 4) = 1 / 2 ∧
    rnd64 (-7496634952020485 / 18014398509481984) = -7496634952020485 / 18014398509481984 ∧
    rnd64 (4095111552621091 / 4503599627370496) = 4095111552621091 / 4503599627370496 := by
  decide!

/-- C1: `entity::act(dt)` sets `pos` to `pos + vel*dt` with the velocity from before the
step, sets `vel` to `vel + acc*dt`, leaves `acc` unchanged, for every entity and every real
`dt`; from rest at the origin with velocity `(10,0,0)` and `dt = 1` the position becomes
`(10,0,0)`. -/
theorem entity_act_spec :
    (∀ (e : entity ℝ) (dt : ℝ),
      (e.act dt).pos = ⟨e.pos.x + e.vel.x * dt, e.pos.y + e.vel.y * dt, e.pos.z + e.vel.z * dt⟩ ∧
      (e.act dt).vel = ⟨e.vel.x + e.acc.x * dt, e.vel.y + e.acc.y * dt, e.vel.z + e.acc.z * dt⟩ ∧
      (e.act dt).acc = e.acc) ∧
    ((⟨⟨0, 0, 0⟩, ⟨10, 0, 0⟩, ⟨0, 0, 0⟩⟩ : entity ℝ).act 1).pos = ⟨10, 0, 0⟩ := by
  refine ⟨fun e dt => ⟨rfl, rfl, rfl⟩, ?_⟩
  simp [entity.act, vector3d.add, vector3d.scale]

/-- The projectile list after `spawn_projectile`: the old list followed by the new
projectile. -/
theorem spawn_projectile_list (src : entity ℝ) (L : List (projectile ℝ)) (R : List renderable) :
    (spawn_projectile Real.cos Real.sin src L R).2.1 =
      L ++ [⟨⟨src.pos,
              ⟨src.vel.x + 100 * Real.cos src.pos.z, src.vel.y + 100 * Real.sin src.pos.z, 0⟩,
              ⟨0, 0, 0⟩⟩, 0⟩] := by
  simp [spawn_projectile, vector3d.add, vector3d.zero]

/-- C2: `spawn_projectile` leaves the source unchanged and appends exactly one projectile
at the end of the projectile list, with the source position, velocity
`(vel.x + 100 cos h, vel.y + 100 sin h, 0)` for the heading `h = src.pos.z`, zero
acceleration and zero distance; heading `0` and zero velocity give velocity `(V,0,0)` with
the muzzle speed `V = 100`. -/
theorem spawn_projectile_spec :
    (∀ (src : entity ℝ) (L : List (projectile ℝ)) (R : List renderable),
      (spawn_projectile Real.cos Real.sin src L R).1 = src ∧
      (spawn_projectile Real.cos Real.sin src L R).2.1 =
        L ++ [⟨⟨src.pos,
                ⟨src.vel.x + 100 * Real.cos src.pos.z, src.vel.y + 100 * Real.sin src.pos.z, 0⟩,
                ⟨0, 0, 0⟩⟩, 0⟩]) ∧
    (∀ (px py : ℝ) (acc : vector3d ℝ) (L : List (projectile ℝ)) (R : List renderable),
      ((spawn_projectile Real.cos Real.sin ⟨⟨px, py, 0⟩, ⟨0, 0, 0⟩, acc⟩ L R).2.1.getLast?).map
        (fun p => p.e.vel) = some ⟨FIRE_VEL, 0, 0⟩) ∧
    (FIRE_VEL : ℝ) = 100 := by
  refine ⟨?_, ?_, rfl⟩
  · intro src L R
    simp [spawn_projectile, vector3d.add, vector3d.zero]
  · intro px py acc L R
    simp [spawn_projectile, vector3d.add, vector3d.zero, FIRE_VEL]

section CullLoop

variable {α : Type} [LinearOrderedField α]

/-- The loop invariant of `cull_loop`: with `proj_it` standing after the processed part
`pre` and at least as much fuel as unprocessed elements `rest`, the loop stops with
`proj_it` at the end and with `pre` followed by the advanced elements of `rest` whose
distance is at most `400`. -/
theorem cull_loop_inv (sqrt : α → α) (dt : α) (fuel : Nat) :
    ∀ (pre rest : List (projectile α)) (R : List renderable) (j : Nat),
      rest.length ≤ fuel →
      (cull_loop sqrt dt fuel ⟨pre ++ rest, R, pre.length, j⟩).proj_list =
          pre ++ (rest.map (fun p => p.act sqrt dt)).filter (fun p => decide (p.d ≤ 400)) ∧
        (cull_loop sqrt dt fuel ⟨pre ++ rest, R, pre.length, j⟩).proj_it =
          (cull_loop sqrt dt fuel ⟨pre ++ rest, R, pre.length, j⟩).proj_list.length := by
  induction fuel with
  | zero =>
    intro pre rest R j h
    have hr : rest = [] := List.length_eq_zero.mp (Nat.le_zero.mp h)
    subst hr
    simp [cull_loop]
  | succ fuel ih =>
    intro pre rest R j h
    cases rest with
    | nil => simp [cull_loop]
    | cons p rest =>
      have hlen : rest.length ≤ fuel := by simpa using h
      have hget : ∀ h : pre.length < (pre ++ p :: rest).length,
          (pre ++ p :: rest)[pre.length] = p := by
        intro h
        rw [List.getElem_append_right (le_refl _)]
        simp
      by_cases hd : (p.act sqrt dt).d > 400
      · have hstep : cull_loop sqrt dt (fuel + 1) ⟨pre ++ p :: rest, R, pre.length, j⟩ =
            cull_loop sqrt dt fuel ⟨pre ++ rest, R.eraseIdx j, pre.length, j⟩ := by
          simp [cull_loop, hget, hd, List.eraseIdx_append_of_length_le]
        rw [hstep]
        have hf : ¬ (p.act sqrt dt).d ≤ 400 := not_le.mpr hd
        simpa [List.filter_cons, hf] using ih pre rest (R.eraseIdx j) j hlen
      · have hstep : cull_loop sqrt dt (fuel + 1) ⟨pre ++ p :: rest, R, pre.length, j⟩ =
            cull_loop sqrt dt fuel
              ⟨(pre ++ [p.act sqrt dt]) ++ rest, R, (pre ++ [p.act sqrt dt]).length, j + 1⟩ := by
          simp [cull_loop, hget, hd]
        rw [hstep]
        have hf : (p.act sqrt dt).d ≤ 400 := not_lt.mp hd
        simpa [List.filter_cons, hf] using ih (pre ++ [p.act sqrt dt]) rest R (j + 1) hlen

end CullLoop

/-- C3: the advance-and-cull loop of `main` leaves exactly the projectiles of the list,
each advanced once by `projectile::act(dt)`, whose distance is then at most `400`, in their
original order (distance exactly `400` stays, above `400` goes); it stops with `proj_it`
at the end, and more iterations than the length of the list change nothing. -/
theorem advance_and_cull_spec (L : List (projectile ℝ)) (R : List renderable) (dt : ℝ) :
    (advance_and_cull Real.sqrt dt L R).proj_list =
        (L.map (fun p => p.act Real.sqrt dt)).filter (fun p => decide (p.d ≤ 400)) ∧
      (advance_and_cull Real.sqrt dt L R).proj_it =
        (advance_and_cull Real.sqrt dt L R).proj_list.length ∧
      ∀ extra : Nat,
        (cull_loop Real.sqrt dt (L.length + extra) ⟨L, R, 0, 0⟩).proj_list =
          (advance_and_cull Real.sqrt dt L R).proj_list := by
  have h0 := cull_loop_inv Real.sqrt dt L.length [] L R 0 (le_refl _)
  refine ⟨by simpa [advance_and_cull] using h0.1, by simpa [advance_and_cull] using h0.2, ?_⟩
  intro extra
  have h1 := cull_loop_inv Real.sqrt dt (L.length + extra) [] L R 0 (Nat.le_add_right _ _)
  have h2 : (advance_and_cull Real.sqrt dt L R).proj_list =
      (L.map (fun p => p.act Real.sqrt dt)).filter (fun p => decide (p.d ≤ 400)) := by
    simpa [advance_and_cull] using h0.1
  rw [h2]
  simpa using h1.1

/-- Truncation discards less than one unit and never moves away from zero. -/
theorem trunc_toward_zero {β : Type} [LinearOrderedField β] [FloorRing β] (d : β) :
    |((trunc d : Int) : β)| ≤ |d| ∧ |d - ((trunc d : Int) : β)| < 1 := by
  by_cases hd : 0 ≤ d
  · have h1 : (0 : β) ≤ ((⌊d⌋ : Int) : β) := by exact_mod_cast Int.floor_nonneg.mpr hd
    have h2 : ((⌊d⌋ : Int) : β) ≤ d := Int.floor_le d
    have h3 : d < ((⌊d⌋ : Int) : β) + 1 := Int.lt_floor_add_one d
    simp only [trunc, hd, if_true]
    rw [abs_of_nonneg h1, abs_of_nonneg hd, abs_of_nonneg (by linarith)]
    constructor <;> linarith
  · have hneg : d < 0 := not_le.mp hd
    have h1 : ((⌈d⌉ : Int) : β) ≤ 0 := by
      exact_mod_cast Int.ceil_le.mpr (by simpa using hneg.le)
    have h2 : d ≤ ((⌈d⌉ : Int) : β) := Int.le_ceil d
    have h3 : ((⌈d⌉ : Int) : β) < d + 1 := Int.ceil_lt_add_one d
    simp only [trunc, hd, if_false]
    rw [abs_of_nonpos h1, abs_of_neg hneg, abs_of_nonpos (by linarith)]
    constructor <;> linarith

/-- The heading component `z` of the world position plays no part in `cart2sdl`. -/
theorem cart2sdl_ignores_z {α : Type} [NatCast α] [IntCast α] [Add α] [Sub α] [Div α]
    (tr : α → Int) (vp : viewport α) (x y z z2 : α) :
    cart2sdl tr vp ⟨x, y, z⟩ = cart2sdl tr vp ⟨x, y, z2⟩ := rfl

/-- C4 (refuted as stated): with the camera at the origin of an 800x600 viewport, the world
position `(2147483648, 0)` has the truncated screen abscissa `2147484048`, which no `int`
holds, so `cart2sdl` does not return the claimed pair there, in exact arithmetic and in
doubles alike; and at the world position `(1 - 2^-53, 0)` the double sum `x + 400` rounds
to `401`, so the program returns `x = 401` where the truncated exact sum is `400`. -/
theorem cart2sdl_out_of_int_range :
    cart2sdl trunc (⟨⟨⟨0, 0, 0⟩, ⟨0, 0, 0⟩, ⟨0, 0, 0⟩⟩, 800, 600⟩ : viewport ℝ)
        ⟨2147483648, 0, 0⟩ ≠
      some (trunc ((2147483648 - 0 : ℝ) + ((800 : Int) : ℝ) / 2),
        trunc ((((600 : Int) : ℝ)) / 2 - (0 - 0 : ℝ))) ∧
    cart2sdl double.trunc (⟨⟨⟨0, 0, 0⟩, ⟨0, 0, 0⟩, ⟨0, 0, 0⟩⟩, 800, 600⟩ : viewport double)
        ⟨⟨2147483648⟩, 0, 0⟩ = none ∧
    (cart2sdl double.trunc (⟨⟨⟨0, 0, 0⟩, ⟨0, 0, 0⟩, ⟨0, 0, 0⟩⟩, 800, 600⟩ : viewport double)
        ⟨⟨9007199254740991 / 9007199254740992⟩, 0, 0⟩ = some (401, 300) ∧
      trunc ((9007199254740991 / 9007199254740992 - 0 : ℚ) + ((800 : Int) : ℚ) / 2) = 400) := by
  refine ⟨?_, by decide!, by decide!, by decide!⟩
  have h : trunc (2147484048 : ℝ) = 2147484048 := by
    norm_num [trunc]
  have hnone :
      cart2sdl trunc (⟨⟨⟨0, 0, 0⟩, ⟨0, 0, 0⟩, ⟨0, 0, 0⟩⟩, 800, 600⟩ : viewport ℝ)
        ⟨2147483648, 0, 0⟩ = none := by
    norm_num [cart2sdl, vector3d.sub, double_to_int, INT_MIN, INT_MAX, h]
  rw [hnone]
  simp

/-- C4 (amended): for every viewport and world position, `cart2sdl` returns `x = trunc(sx)`
and `y = trunc(sy)`, where `sx = (p.x - c.x) + w/2` and `sy = h/2 - (p.y - c.y)` are
computed in double arithmetic, every operation rounded as in the program, and `trunc`
discards the fractional part toward zero, when both truncated values fit a 32-bit `int`;
otherwise the conversion has no defined result. With the camera at the origin of an
800x600 viewport, world `(0,0)` maps to `(400,300)` and world `(0,100)` to `(400,200)`. -/
theorem cart2sdl_spec :
    (∀ (vp : viewport double) (p : vector3d double),
      cart2sdl double.trunc vp p =
        if (INT_MIN ≤ double.trunc
                ((p.x - vp.e.pos.x) + (vp.w : double) / ((2 : Nat) : double)) ∧
              double.trunc
                ((p.x - vp.e.pos.x) + (vp.w : double) / ((2 : Nat) : double)) ≤ INT_MAX) ∧
            (INT_MIN ≤ double.trunc
                ((vp.h : double) / ((2 : Nat) : double) - (p.y - vp.e.pos.y)) ∧
              double.trunc
                ((vp.h : double) / ((2 : Nat) : double) - (p.y - vp.e.pos.y)) ≤ INT_MAX)
        then some
          (double.trunc ((p.x - vp.e.pos.x) + (vp.w : double) / ((2 : Nat) : double)),
            double.trunc ((vp.h : double) / ((2 : Nat) : double) - (p.y - vp.e.pos.y)))
        else none) ∧
    (∀ d : double, |((double.trunc d : Int) : ℚ)| ≤ |d.val| ∧
      |d.val - ((double.trunc d : Int) : ℚ)| < 1) ∧
    (∀ z : double,
      cart2sdl double.trunc (⟨⟨⟨0, 0, 0⟩, ⟨0, 0, 0⟩, ⟨0, 0, 0⟩⟩, 800, 600⟩ : viewport double)
        ⟨0, 0, z⟩ = some (400, 300)) ∧
    (∀ z : double,
      cart2sdl double.trunc (⟨⟨⟨0, 0, 0⟩, ⟨0, 0, 0⟩, ⟨0, 0, 0⟩⟩, 800, 600⟩ : viewport double)
        ⟨0, ⟨100⟩, z⟩ = some (400, 200)) := by
  refine ⟨?_, ?_, ?_, ?_⟩
  · intro vp p
    unfold cart2sdl double_to_int
    simp only [vector3d.sub]
    generalize double.trunc ((p.x - vp.e.pos.x) + (vp.w : double) / ((2 : Nat) : double)) = tx
    generalize double.trunc ((vp.h : double) / ((2 : Nat) : double) - (p.y - vp.e.pos.y)) = ty
    by_cases hx : INT_MIN ≤ tx ∧ tx ≤ INT_MAX
    · by_cases hy : INT_MIN ≤ ty ∧ ty ≤ INT_MAX
      · simp [hx, hy]
      · simp [hx, hy]
    · simp [hx]
  · intro d
    exact trunc_toward_zero d.val
  · intro z
    exact (cart2sdl_ignores_z double.trunc _ 0 0 z 0).trans (by decide!)
  · intro z
    exact (cart2sdl_ignores_z double.trunc _ 0 ⟨100⟩ z 0).trans (by decide!)

/-- C5 (refuted as stated): at heading `2.0`, with the doubles that the C library returns
for `cos(2.0)` and `sin(2.0)`, the FORWARD and the BACKWARD acceleration computed in double
arithmetic have magnitude `100.00000000000001`, not `100`. -/
theorem acc_mag_rounded :
    vector3d.mag double.sqrt
        (handle_controls cos_table sin_table
          (⟨⟨0, 0, ⟨2⟩⟩, ⟨0, 0, 0⟩, ⟨0, 0, 0⟩⟩ : entity double) control.CTRL_FORWARD).acc =
      ⟨7036874417766401 / 70368744177664⟩ ∧
    vector3d.mag double.sqrt
        (handle_controls cos_table sin_table
          (⟨⟨0, 0, ⟨2⟩⟩, ⟨0, 0, 0⟩, ⟨0, 0, 0⟩⟩ : entity double) control.CTRL_BACKWARD).acc =
      ⟨7036874417766401 / 70368744177664⟩ ∧
    vector3d.mag double.sqrt
        (handle_controls cos_table sin_table
          (⟨⟨0, 0, ⟨2⟩⟩, ⟨0, 0, 0⟩, ⟨0, 0, 0⟩⟩ : entity double) control.CTRL_FORWARD).acc ≠
      ((100 : Nat) : double) ∧
    (7036874417766401 / 70368744177664 : ℚ) ≠ 100 := by
  decide!

/-- C5 (amended): `handle_controls` keeps `pos` and `vel` and sets `acc`, whatever it was
before, to
`(100 cos h, 100 sin h, 0)` for FORWARD, `(-100 cos h, -100 sin h, 0)` for BACKWARD,
`(0,0,10)` for TURN_L, `(0,0,-10)` for TURN_R and `(0,0,0)` for FIRE and NONE, where
`h = pos.z`; in exact real arithmetic, with the real cosine and sine, the FORWARD and
BACKWARD accelerations have magnitude exactly `100`. -/
theorem handle_controls_spec (e : entity ℝ) :
    (∀ c : control, (handle_controls Real.cos Real.sin e c).pos = e.pos ∧
      (handle_controls Real.cos Real.sin e c).vel = e.vel) ∧
    (handle_controls Real.cos Real.sin e control.CTRL_FORWARD).acc =
      ⟨100 * Real.cos e.pos.z, 100 * Real.sin e.pos.z, 0⟩ ∧
    (handle_controls Real.cos Real.sin e control.CTRL_BACKWARD).acc =
      ⟨-100 * Real.cos e.pos.z, -100 * Real.sin e.pos.z, 0⟩ ∧
    (handle_controls Real.cos Real.sin e control.CTRL_TURN_L).acc = ⟨0, 0, 10⟩ ∧
    (handle_controls Real.cos Real.sin e control.CTRL_TURN_R).acc = ⟨0, 0, -10⟩ ∧
    (handle_controls Real.cos Real.sin e control.CTRL_FIRE).acc = ⟨0, 0, 0⟩ ∧
    (handle_controls Real.cos Real.sin e control.CTRL_NONE).acc = ⟨0, 0, 0⟩ ∧
    (handle_controls Real.cos Real.sin e control.CTRL_FORWARD).acc.mag Real.sqrt = 100 ∧
    (handle_controls Real.cos Real.sin e control.CTRL_BACKWARD).acc.mag Real.sqrt = 100 := by
  have hsq : ∀ t : ℝ, Real.sqrt (100 * Real.cos t * (100 * Real.cos t) +
      100 * Real.sin t * (100 * Real.sin t)) = 100 := by
    intro t
    have h1 : 100 * Real.cos t * (100 * Real.cos t) + 100 * Real.sin t * (100 * Real.sin t)
        = 100 * 100 := by
      linear_combination 10000 * Real.cos_sq_add_sin_sq t
    rw [h1]
    exact Real.sqrt_mul_self (by norm_num)
  refine ⟨?_, ?_, ?_, ?_, ?_, ?_, ?_, ?_, ?_⟩
  · intro c
    cases c <;> exact ⟨rfl, rfl⟩
  · simp [handle_controls, vector3d.zero, F_ACC_MAG]
  · simp [handle_controls, vector3d.zero, B_ACC_MAG]
  · simp [handle_controls, vector3d.zero, T_ACC_MAG]
  · simp [handle_controls, vector3d.zero, T_ACC_MAG]
  · simp [handle_controls, vector3d.zero]
  · simp [handle_controls, vector3d.zero]
  · simpa [handle_controls, vector3d.zero, F_ACC_MAG, vector3d.mag] using hsq e.pos.z
  · simpa [handle_controls, vector3d.zero, B_ACC_MAG, vector3d.mag] using hsq e.pos.z

/-- C6: an entity whose `vel.x` is above `400` has `vel.x = 400` after one call of
`cap_vel`, whatever `vel.y` and `vel.z` are. -/
theorem cap_vel_x_above (e : entity ℝ) (h : e.vel.x > 400) : (cap_vel e).vel.x = 400 := by
  simp [cap_vel, X_VEL_CAP, h]

/-- C6 at `vel = (1000, -2000, 77)`. -/
theorem cap_vel_x_above_witness :
    (⟨⟨0, 0, 0⟩, ⟨1000, -2000, 77⟩, ⟨0, 0, 0⟩⟩ : entity ℝ).vel.x > 400 ∧
      (cap_vel (⟨⟨0, 0, 0⟩, ⟨1000, -2000, 77⟩, ⟨0, 0, 0⟩⟩ : entity ℝ)).vel.x = 400 :=
  ⟨by norm_num, cap_vel_x_above _ (by norm_num)⟩

/-- C7 (refuted as stated): from `vel = (1000, 1000, 0)` one call of `cap_vel` gives
`vel = (400, 1000, 0)`, so `vel.y` is not within `[-400, 400]` afterwards. -/
theorem cap_vel_not_independent :
    (cap_vel (⟨⟨0, 0, 0⟩, ⟨1000, 1000, 0⟩, ⟨0, 0, 0⟩⟩ : entity ℝ)).vel = ⟨400, 1000, 0⟩ ∧
    ¬ ((-400 ≤ (cap_vel (⟨⟨0, 0, 0⟩, ⟨1000, 1000, 0⟩, ⟨0, 0, 0⟩⟩ : entity ℝ)).vel.x ∧
          (cap_vel (⟨⟨0, 0, 0⟩, ⟨1000, 1000, 0⟩, ⟨0, 0, 0⟩⟩ : entity ℝ)).vel.x ≤ 400) ∧
        (-400 ≤ (cap_vel (⟨⟨0, 0, 0⟩, ⟨1000, 1000, 0⟩, ⟨0, 0, 0⟩⟩ : entity ℝ)).vel.y ∧
          (cap_vel (⟨⟨0, 0, 0⟩, ⟨1000, 1000, 0⟩, ⟨0, 0, 0⟩⟩ : entity ℝ)).vel.y ≤ 400) ∧
        (-5 ≤ (cap_vel (⟨⟨0, 0, 0⟩, ⟨1000, 1000, 0⟩, ⟨0, 0, 0⟩⟩ : entity ℝ)).vel.z ∧
          (cap_vel (⟨⟨0, 0, 0⟩, ⟨1000, 1000, 0⟩, ⟨0, 0, 0⟩⟩ : entity ℝ)).vel.z ≤ 5)) := by
  have h : cap_vel (⟨⟨0, 0, 0⟩, ⟨1000, 1000, 0⟩, ⟨0, 0, 0⟩⟩ : entity ℝ) =
      ⟨⟨0, 0, 0⟩, ⟨400, 1000, 0⟩, ⟨0, 0, 0⟩⟩ := by
    norm_num [cap_vel, X_VEL_CAP]
  rw [h]
  norm_num

/-- C7 (amended): after one call of `cap_vel`, `vel.x` is within `[-400, 400]`; `vel.y` is
within `[-400, 400]` when `vel.x` was within its range before the call; `vel.z` is within
`[-5, 5]` when `vel.x` and `vel.y` were within their ranges before the call. -/
theorem cap_vel_bounds (e : entity ℝ) :
    (-400 ≤ (cap_vel e).vel.x ∧ (cap_vel e).vel.x ≤ 400) ∧
    ((-400 ≤ e.vel.x ∧ e.vel.x ≤ 400) →
      (-400 ≤ (cap_vel e).vel.y ∧ (cap_vel e).vel.y ≤ 400)) ∧
    ((-400 ≤ e.vel.x ∧ e.vel.x ≤ 400) → (-400 ≤ e.vel.y ∧ e.vel.y ≤ 400) →
      (-5 ≤ (cap_vel e).vel.z ∧ (cap_vel e).vel.z ≤ 5)) := by
  unfold cap_vel X_VEL_CAP Y_VEL_CAP Z_VEL_CAP
  simp only [Nat.cast_ofNat]
  refine ⟨?_, ?_, ?_⟩
  · split_ifs <;> constructor <;> (try dsimp only) <;> linarith
  · intro hx
    split_ifs <;> constructor <;> (try dsimp only) <;> linarith
  · intro hx hy
    split_ifs <;> constructor <;> (try dsimp only) <;> linarith

/-- C7 (amended) at `vel = (100, 1000, 9)` and `vel = (100, 100, 9)`: with `x` in range the
`y` component ends in range, and with `x` and `y` in range the `z` component does. -/
theorem cap_vel_bounds_witness :
    ((-400 ≤ (⟨⟨0, 0, 0⟩, ⟨100, 1000, 9⟩, ⟨0, 0, 0⟩⟩ : entity ℝ).vel.x ∧
        (⟨⟨0, 0, 0⟩, ⟨100, 1000, 9⟩, ⟨0, 0, 0⟩⟩ : entity ℝ).vel.x ≤ 400) ∧
      (-400 ≤ (cap_vel (⟨⟨0, 0, 0⟩, ⟨100, 1000, 9⟩, ⟨0, 0, 0⟩⟩ : entity ℝ)).vel.y ∧
        (cap_vel (⟨⟨0, 0, 0⟩, ⟨100, 1000, 9⟩, ⟨0, 0, 0⟩⟩ : entity ℝ)).vel.y ≤ 400)) ∧
    ((-400 ≤ (⟨⟨0, 0, 0⟩, ⟨100, 100, 9⟩, ⟨0, 0, 0⟩⟩ : entity ℝ).vel.y ∧
        (⟨⟨0, 0, 0⟩, ⟨100, 100, 9⟩, ⟨0, 0, 0⟩⟩ : entity ℝ).vel.y ≤ 400) ∧
      (-5 ≤ (cap_vel (⟨⟨0, 0, 0⟩, ⟨100, 100, 9⟩, ⟨0, 0, 0⟩⟩ : entity ℝ)).vel.z ∧
        (cap_vel (⟨⟨0, 0, 0⟩, ⟨100, 100, 9⟩, ⟨0, 0, 0⟩⟩ : entity ℝ)).vel.z ≤ 5)) :=
  ⟨⟨by norm_num, (cap_vel_bounds _).2.1 (by norm_num)⟩,
    ⟨by norm_num, (cap_vel_bounds _).2.2 (by norm_num) (by norm_num)⟩⟩

/-- C8: rotating a vector by `theta` and then by `-theta` returns the vector: `x` and `y`
are recovered exactly over the reals and `z` is unchanged. -/
theorem rotate_neg_rotate (v : vector3d ℝ) (theta : ℝ) :
    (v.rotate Real.cos Real.sin theta).rotate Real.cos Real.sin (-theta) = v := by
  have hx : (v.x * Real.cos theta - v.y * Real.sin theta) * Real.cos theta -
      (v.x * Real.sin theta + v.y * Real.cos theta) * -Real.sin theta = v.x := by
    linear_combination v.x * Real.cos_sq_add_sin_sq theta
  have hy : (v.x * Real.cos theta - v.y * Real.sin theta) * -Real.sin theta +
      (v.x * Real.sin theta + v.y * Real.cos theta) * Real.cos theta = v.y := by
    linear_combination v.y * Real.cos_sq_add_sin_sq theta
  cases v
  simp only [vector3d.rotate, Real.cos_neg, Real.sin_neg] at *
  rw [hx, hy]

/-- The distance added by one `projectile::act(dt)` with `dt >= 0`: the magnitude of the
planar velocity scaled by `dt` is the planar speed times `dt`. -/
theorem planar_step_mag (vx vy dt : ℝ) (hdt : 0 ≤ dt) :
    vector3d.mag Real.sqrt (vector3d.scale ⟨vx, vy, 0⟩ dt) = Real.sqrt (vx ^ 2 + vy ^ 2) * dt := by
  have h : vx * dt * (vx * dt) + vy * dt * (vy * dt) + 0 * dt * (0 * dt) =
      (vx ^ 2 + vy ^ 2) * dt ^ 2 := by ring
  simp only [vector3d.mag, vector3d.scale]
  rw [h, Real.sqrt_mul (by positivity), Real.sqrt_sq hdt]

/-- The distance and the entity after `projectile::act`, written with the operations of
the code in their order, for any arithmetic. -/
theorem projectile_act_unfold {α : Type} [Zero α] [Add α] [Mul α] (sqrt : α → α)
    (q : projectile α) (t : α) :
    (q.act sqrt t).d =
        q.d + sqrt (q.e.vel.x * t * (q.e.vel.x * t) + q.e.vel.y * t * (q.e.vel.y * t) +
          0 * t * (0 * t)) ∧
      (q.act sqrt t).e = q.e.act t :=
  ⟨rfl, rfl⟩

/-- C9 (refuted as stated): for velocity `(3, 4, 7)`, distance `0` and `dt = 0.7` the
program's doubles give `d = 3.4999999999999996`, while `d + sqrt(vel.x^2 + vel.y^2) * dt`
is `3.5` when evaluated in doubles and `5 * dt` (with `dt` the double `0.7`) in exact
arithmetic; both differ from the program's value. -/
theorem planar_distance_rounded :
    ((⟨⟨⟨0, 0, 0⟩, ⟨⟨3⟩, ⟨4⟩, ⟨7⟩⟩, ⟨0, 0, 0⟩⟩, 0⟩ : projectile double).act double.sqrt
        ⟨3152519739159347 / 4503599627370496⟩).d =
      ⟨7881299347898367 / 2251799813685248⟩ ∧
    (0 : double) + double.sqrt ((⟨3⟩ : double) * ⟨3⟩ + (⟨4⟩ : double) * ⟨4⟩) *
        ⟨3152519739159347 / 4503599627370496⟩ = ⟨7 / 2⟩ ∧
    (7881299347898367 / 2251799813685248 : ℚ) ≠ 7 / 2 ∧
    ((7881299347898367 / 2251799813685248 : ℚ) : ℝ) ≠
      0 + Real.sqrt ((3 : ℝ) ^ 2 + (4 : ℝ) ^ 2) *
        ((3152519739159347 / 4503599627370496 : ℚ) : ℝ) ∧
    rnd64 (3152519739159347 / 4503599627370496) = 3152519739159347 / 4503599627370496 ∧
    (0 : ℚ) ≤ 3152519739159347 / 4503599627370496 := by
  refine ⟨by decide!, by decide!, by decide!, ?_, by decide!, by decide!⟩
  have h5 : Real.sqrt ((3 : ℝ) ^ 2 + (4 : ℝ) ^ 2) = 5 := by
    rw [show (3 : ℝ) ^ 2 + (4 : ℝ) ^ 2 = 5 ^ 2 by norm_num]
    exact Real.sqrt_sq (by norm_num)
  rw [h5]
  norm_num

/-- C9 (amended): `projectile::act(dt)` changes the embedded entity exactly as
`entity::act(dt)` does and sets `d` to `d + sqrt((vel.x*dt)^2 + (vel.y*dt)^2 + (0*dt)^2)`
with the velocity held before the step (`vel.z` does not contribute), every operation
rounded in the program's doubles; in exact real arithmetic, for `dt >= 0`, this is
`d + sqrt(vel.x^2 + vel.y^2) * dt`. -/
theorem projectile_act_spec (p : projectile ℝ) (dt : ℝ) (hdt : 0 ≤ dt) :
    ((p.act Real.sqrt dt).d = p.d + Real.sqrt (p.e.vel.x ^ 2 + p.e.vel.y ^ 2) * dt ∧
      (p.act Real.sqrt dt).e = p.e.act dt) ∧
    (∀ (q : projectile double) (t : double),
      (q.act double.sqrt t).d =
          q.d + double.sqrt (q.e.vel.x * t * (q.e.vel.x * t) + q.e.vel.y * t * (q.e.vel.y * t) +
            0 * t * (0 * t)) ∧
        (q.act double.sqrt t).e = q.e.act t) := by
  refine ⟨⟨?_, rfl⟩, fun q t => projectile_act_unfold double.sqrt q t⟩
  simp only [projectile.act]
  rw [planar_step_mag _ _ _ hdt]

/-- C9 (amended) at velocity `(3, 4, 7)`, distance `1` and `dt = 2`. -/
theorem projectile_act_spec_witness :
    (0 : ℝ) ≤ 2 ∧
      ((⟨⟨⟨0, 0, 0⟩, ⟨3, 4, 7⟩, ⟨0, 0, 0⟩⟩, 1⟩ : projectile ℝ).act Real.sqrt 2).d =
        (⟨⟨⟨0, 0, 0⟩, ⟨3, 4, 7⟩, ⟨0, 0, 0⟩⟩, 1⟩ : projectile ℝ).d +
          Real.sqrt ((⟨⟨⟨0, 0, 0⟩, ⟨3, 4, 7⟩, ⟨0, 0, 0⟩⟩, 1⟩ : projectile ℝ).e.vel.x ^ 2 +
            (⟨⟨⟨0, 0, 0⟩, ⟨3, 4, 7⟩, ⟨0, 0, 0⟩⟩, 1⟩ : projectile ℝ).e.vel.y ^ 2) * 2 ∧
      ((⟨⟨⟨0, 0, 0⟩, ⟨3, 4, 7⟩, ⟨0, 0, 0⟩⟩, 1⟩ : projectile ℝ).act Real.sqrt 2).e =
        (⟨⟨⟨0, 0, 0⟩, ⟨3, 4, 7⟩, ⟨0, 0, 0⟩⟩, 1⟩ : projectile ℝ).e.act 2 :=
  ⟨by norm_num, (projectile_act_spec _ 2 (by norm_num)).1⟩

/-- Flight of a projectile without acceleration: after `N` steps of `dt >= 0` the velocity
and the (zero) acceleration are as at the start, the distance has grown by the planar speed
times `N * dt`, and the position by `N * dt` times the velocity. -/
theorem coasting_flight (p : projectile ℝ) (hacc : p.e.acc = ⟨0, 0, 0⟩) (dt : ℝ) (hdt : 0 ≤ dt)
    (N : Nat) :
    ((fun q : projectile ℝ => q.act Real.sqrt dt)^[N] p).e.vel = p.e.vel ∧
      ((fun q : projectile ℝ => q.act Real.sqrt dt)^[N] p).e.acc = ⟨0, 0, 0⟩ ∧
      ((fun q : projectile ℝ => q.act Real.sqrt dt)^[N] p).d =
        p.d + Real.sqrt (p.e.vel.x ^ 2 + p.e.vel.y ^ 2) * N * dt ∧
      ((fun q : projectile ℝ => q.act Real.sqrt dt)^[N] p).e.pos =
        p.e.pos.add (p.e.vel.scale (N * dt)) := by
  induction N with
  | zero =>
    refine ⟨rfl, hacc, by simp, ?_⟩
    simp [vector3d.add, vector3d.scale]
  | succ N ih =>
    obtain ⟨hv, ha, hd, hpos⟩ := ih
    rw [Function.iterate_succ_apply']
    generalize (fun q : projectile ℝ => q.act Real.sqrt dt)^[N] p = q at hv ha hd hpos
    have hstep_d : (q.act Real.sqrt dt).d =
        q.d + Real.sqrt (q.e.vel.x ^ 2 + q.e.vel.y ^ 2) * dt := by
      simp only [projectile.act]
      rw [planar_step_mag _ _ _ hdt]
    have hstep_e : (q.act Real.sqrt dt).e = q.e.act dt := rfl
    refine ⟨?_, ?_, ?_, ?_⟩
    · rw [hstep_e]
      simp [entity.act, ha, vector3d.add, vector3d.scale, ← hv]
    · rw [hstep_e]
      simpa [entity.act] using ha
    · rw [hstep_d, hd, hv]
      push_cast
      ring
    · rw [hstep_e]
      simp only [entity.act, hpos, hv, vector3d.add, vector3d.scale]
      push_cast
      congr 1 <;> ring

/-- C10 (refuted as stated): a projectile spawned at the origin with heading `0` from a
source at rest (spawn velocity `(100,0,0)`), advanced ten times with `dt = 0.001` in the
program's doubles, has distance and abscissa `0.9999999999999999`, while `S * N * dt` and
the abscissa of `pos + N * dt * vel` are `1.0` when evaluated in doubles and `1000 * dt`
(with `dt` the double `0.001`) in exact arithmetic. -/
theorem flight_distance_rounded :
    (spawn_projectile cos_table sin_table
        (⟨⟨0, 0, 0⟩, ⟨0, 0, 0⟩, ⟨0, 0, 0⟩⟩ : entity double) [] []).2.1 =
      [⟨⟨⟨0, 0, 0⟩, ⟨⟨100⟩, 0, 0⟩, ⟨0, 0, 0⟩⟩, 0⟩] ∧
    ((fun q : projectile double =>
          q.act double.sqrt ⟨1152921504606847 / 1152921504606846976⟩)^[10]
        ⟨⟨⟨0, 0, 0⟩, ⟨⟨100⟩, 0, 0⟩, ⟨0, 0, 0⟩⟩, 0⟩).d =
      ⟨9007199254740991 / 9007199254740992⟩ ∧
    ((fun q : projectile double =>
          q.act double.sqrt ⟨1152921504606847 / 1152921504606846976⟩)^[10]
        ⟨⟨⟨0, 0, 0⟩, ⟨⟨100⟩, 0, 0⟩, ⟨0, 0, 0⟩⟩, 0⟩).e.pos.x =
      ⟨9007199254740991 / 9007199254740992⟩ ∧
    double.sqrt ((⟨100⟩ : double) * ⟨100⟩ + (0 : double) * 0) * ((10 : Nat) : double) *
        ⟨1152921504606847 / 1152921504606846976⟩ = ⟨1⟩ ∧
    ((⟨0, 0, 0⟩ : vector3d double).add
        ((⟨⟨100⟩, 0, 0⟩ : vector3d double).scale
          (((10 : Nat) : double) * ⟨1152921504606847 / 1152921504606846976⟩))).x = ⟨1⟩ ∧
    (9007199254740991 / 9007199254740992 : ℚ) ≠ 1 ∧
    ((9007199254740991 / 9007199254740992 : ℚ) : ℝ) ≠
      Real.sqrt ((100 : ℝ) ^ 2 + (0 : ℝ) ^ 2) * (10 : Nat) *
        ((1152921504606847 / 1152921504606846976 : ℚ) : ℝ) ∧
    rnd64 (1152921504606847 / 1152921504606846976) = 1152921504606847 / 1152921504606846976 ∧
    (0 : ℚ) ≤ 1152921504606847 / 1152921504606846976 := by
  refine ⟨by decide!, by decide!, by decide!, by decide!, by decide!, by decide!, ?_,
    by decide!, by decide!⟩
  have h100 : Real.sqrt ((100 : ℝ) ^ 2 + (0 : ℝ) ^ 2) = 100 := by
    rw [show (100 : ℝ) ^ 2 + (0 : ℝ) ^ 2 = 100 ^ 2 by norm_num]
    exact Real.sqrt_sq (by norm_num)
  rw [h100]
  norm_num

/-- C10 (amended): in exact real arithmetic, a projectile just produced by
`spawn_projectile` (the last element of the new list), advanced `N` times by
`projectile::act(dt)` with `dt >= 0`, still has its spawn velocity, has accumulated
distance exactly `S * N * dt` for its planar speed `S = sqrt(vel.x^2 + vel.y^2)`, and
stands at its spawn position plus `N * dt` times its velocity. -/
theorem spawned_projectile_flight (src : entity ℝ) (L : List (projectile ℝ))
    (R : List renderable) (p : projectile ℝ)
    (hp : (spawn_projectile Real.cos Real.sin src L R).2.1.getLast? = some p)
    (dt : ℝ) (hdt : 0 ≤ dt) (N : Nat) :
    ((fun q : projectile ℝ => q.act Real.sqrt dt)^[N] p).e.vel = p.e.vel ∧
      ((fun q : projectile ℝ => q.act Real.sqrt dt)^[N] p).d =
        Real.sqrt (p.e.vel.x ^ 2 + p.e.vel.y ^ 2) * N * dt ∧
      ((fun q : projectile ℝ => q.act Real.sqrt dt)^[N] p).e.pos =
        p.e.pos.add (p.e.vel.scale (N * dt)) := by
  have hp2 : p = ⟨⟨src.pos,
      ⟨src.vel.x + 100 * Real.cos src.pos.z, src.vel.y + 100 * Real.sin src.pos.z, 0⟩,
      ⟨0, 0, 0⟩⟩, 0⟩ := by
    have h := (spawn_projectile_list src L R)
    rw [h] at hp
    simpa using hp.symm
  have hacc : p.e.acc = ⟨0, 0, 0⟩ := by rw [hp2]
  have hd0 : p.d = 0 := by rw [hp2]
  obtain ⟨hv, _, hd, hpos⟩ := coasting_flight p hacc dt hdt N
  refine ⟨hv, ?_, hpos⟩
  rw [hd, hd0, zero_add]

/-- C10 (amended) for a shot from rest at the origin with heading `0` (spawn velocity
`(100,0,0)`), three steps of `dt = 1/2`. -/
theorem spawned_projectile_flight_witness :
    (spawn_projectile Real.cos Real.sin (⟨⟨0, 0, 0⟩, ⟨0, 0, 0⟩, ⟨0, 0, 0⟩⟩ : entity ℝ) [] []).2.1.getLast?
        = some ⟨⟨⟨0, 0, 0⟩, ⟨100, 0, 0⟩, ⟨0, 0, 0⟩⟩, 0⟩ ∧
      (0 : ℝ) ≤ 1 / 2 ∧
      ((fun q : projectile ℝ => q.act Real.sqrt (1 / 2))^[3]
          ⟨⟨⟨0, 0, 0⟩, ⟨100, 0, 0⟩, ⟨0, 0, 0⟩⟩, 0⟩).e.vel =
        (⟨⟨⟨0, 0, 0⟩, ⟨100, 0, 0⟩, ⟨0, 0, 0⟩⟩, 0⟩ : projectile ℝ).e.vel ∧
      ((fun q : projectile ℝ => q.act Real.sqrt (1 / 2))^[3]
          ⟨⟨⟨0, 0, 0⟩, ⟨100, 0, 0⟩, ⟨0, 0, 0⟩⟩, 0⟩).d =
        Real.sqrt ((⟨⟨⟨0, 0, 0⟩, ⟨100, 0, 0⟩, ⟨0, 0, 0⟩⟩, 0⟩ : projectile ℝ).e.vel.x ^ 2 +
          (⟨⟨⟨0, 0, 0⟩, ⟨100, 0, 0⟩, ⟨0, 0, 0⟩⟩, 0⟩ : projectile ℝ).e.vel.y ^ 2) * (3 : Nat) * (1 / 2) ∧
      ((fun q : projectile ℝ => q.act Real.sqrt (1 / 2))^[3]
          ⟨⟨⟨0, 0, 0⟩, ⟨100, 0, 0⟩, ⟨0, 0, 0⟩⟩, 0⟩).e.pos =
        (⟨⟨⟨0, 0, 0⟩, ⟨100, 0, 0⟩, ⟨0, 0, 0⟩⟩, 0⟩ : projectile ℝ).e.pos.add
          ((⟨⟨⟨0, 0, 0⟩, ⟨100, 0, 0⟩, ⟨0, 0, 0⟩⟩, 0⟩ : projectile ℝ).e.vel.scale
            ((3 : Nat) * (1 / 2))) :=
  have hp : (spawn_projectile Real.cos Real.sin
      (⟨⟨0, 0, 0⟩, ⟨0, 0, 0⟩, ⟨0, 0, 0⟩⟩ : entity ℝ) [] []).2.1.getLast?
        = some ⟨⟨⟨0, 0, 0⟩, ⟨100, 0, 0⟩, ⟨0, 0, 0⟩⟩, 0⟩ := by
    simp [spawn_projectile, vector3d.add, vector3d.zero]
  ⟨hp, by norm_num, spawned_projectile_flight _ [] [] _ hp (1 / 2) (by norm_num) 3⟩

/-! ### The frame loop: fire timer and spawning -/

section FrameLoop

variable {α : Type} [LinearOrderedField α]

/-- The control left by the fire timer: `CTRL_FIRE` inside the cooldown becomes
`CTRL_NONE`, everything else passes. -/
theorem fire_timer_fst (t t_fire : α) (c : control) :
    (fire_timer t t_fire c).1 =
      if c = control.CTRL_FIRE ∧ t - t_fire < 1 then control.CTRL_NONE else c := by
  unfold fire_timer
  by_cases hc : c = control.CTRL_FIRE <;> by_cases ht : t - t_fire < 1 <;> simp [hc, ht]

/-- The last-shot time left by the fire timer: the current time when `CTRL_FIRE` passes,
the old value otherwise. -/
theorem fire_timer_snd (t t_fire : α) (c : control) :
    (fire_timer t t_fire c).2 =
      if c = control.CTRL_FIRE ∧ ¬ t - t_fire < 1 then t else t_fire := by
  unfold fire_timer
  by_cases hc : c = control.CTRL_FIRE <;> by_cases ht : t - t_fire < 1 <;> simp [hc, ht]

/-- The fire timer lets `CTRL_FIRE` through exactly when the control is `CTRL_FIRE` and the
cooldown is over. -/
theorem fire_timer_fire_iff (t t_fire : α) (c : control) :
    (fire_timer t t_fire c).1 = control.CTRL_FIRE ↔
      c = control.CTRL_FIRE ∧ ¬ t - t_fire < 1 := by
  rw [fire_timer_fst]
  by_cases hc : c = control.CTRL_FIRE <;> by_cases ht : t - t_fire < 1 <;> simp [hc, ht]

/-- An iteration that meets a quit event leaves the loop and pushes nothing. -/
theorem frame_of_quit (cos sin sqrt : α → α) (s : main_state α) (inp : frame_input α)
    (h : poll_event s.player_ctrl inp.event inp.keyStates = none) :
    frame cos sin sqrt s inp = none ∧ spawn_count cos sin s inp = 0 := by
  simp [frame, spawn_count, frame_controls, h]

/-- What an iteration without quit event leaves: the control and last-shot time of the fire
timer, the new time, and both projectile vectors one longer exactly when the control is
still `CTRL_FIRE` after the timer. -/
theorem frame_controls_of_poll (cos sin : α → α) (s : main_state α) (inp : frame_input α)
    (c : control) (h : poll_event s.player_ctrl inp.event inp.keyStates = some c) :
    ∃ s1, frame_controls cos sin s inp = some s1 ∧
      s1.player_ctrl = (fire_timer inp.time s.t_fire c).1 ∧
      s1.t_fire = (fire_timer inp.time s.t_fire c).2 ∧
      s1.t = inp.time ∧ s1.dt = inp.time - s.t ∧
      s1.proj_list.length = s.proj_list.length +
        (if (fire_timer inp.time s.t_fire c).1 = control.CTRL_FIRE then 1 else 0) ∧
      s1.proj_render_list.length = s.proj_render_list.length +
        (if (fire_timer inp.time s.t_fire c).1 = control.CTRL_FIRE then 1 else 0) := by
  by_cases hf : (fire_timer inp.time s.t_fire c).1 = control.CTRL_FIRE
  · exact ⟨_, by simp only [frame_controls, h, hf, if_true]; rfl,
      by simp [hf], rfl, rfl, rfl, by simp [hf, spawn_projectile],
      by simp [hf, spawn_projectile]⟩
  · exact ⟨_, by simp only [frame_controls, h, hf, if_false]; rfl,
      rfl, rfl, rfl, rfl, by simp [hf], by simp [hf]⟩

/-- The second half of an iteration keeps the control, the times and the ship list. -/
theorem frame_act_fields (sqrt : α → α) (s : main_state α) :
    (frame_act sqrt s).player_ctrl = s.player_ctrl ∧ (frame_act sqrt s).t_fire = s.t_fire ∧
      (frame_act sqrt s).t = s.t ∧ (frame_act sqrt s).dt = s.dt :=
  ⟨rfl, rfl, rfl, rfl⟩

/-- A whole iteration without quit event: the next state exists, carries the control and
last-shot time of the fire timer, and the iteration pushes one projectile exactly when the
control is still `CTRL_FIRE` after the timer. -/
theorem frame_of_poll (cos sin sqrt : α → α) (s : main_state α) (inp : frame_input α)
    (c : control) (h : poll_event s.player_ctrl inp.event inp.keyStates = some c) :
    ∃ s2, frame cos sin sqrt s inp = some s2 ∧
      s2.player_ctrl = (fire_timer inp.time s.t_fire c).1 ∧
      s2.t_fire = (fire_timer inp.time s.t_fire c).2 ∧
      s2.t = inp.time ∧
      spawn_count cos sin s inp =
        (if (fire_timer inp.time s.t_fire c).1 = control.CTRL_FIRE then 1 else 0) := by
  obtain ⟨s1, h1, hc, hf, ht, _, hl, _⟩ := frame_controls_of_poll cos sin s inp c h
  refine ⟨frame_act sqrt s1, by simp [frame, h1], hc, hf, ht, ?_⟩
  simp [spawn_count, h1, hl]

/-- The spawn times of a run whose first iteration has no quit event: the time of that
iteration, when the fire timer lets `CTRL_FIRE` through, followed by the spawn times of the
rest of the run from the next state. -/
theorem spawn_times_cons (cos sin sqrt : α → α) (s : main_state α) (inp : frame_input α)
    (rest : List (frame_input α)) (c : control)
    (h : poll_event s.player_ctrl inp.event inp.keyStates = some c) :
    ∃ s2, frame cos sin sqrt s inp = some s2 ∧
      s2.player_ctrl = (fire_timer inp.time s.t_fire c).1 ∧
      s2.t_fire = (fire_timer inp.time s.t_fire c).2 ∧
      spawn_times cos sin sqrt (inp :: rest) s =
        (if (fire_timer inp.time s.t_fire c).1 = control.CTRL_FIRE
          then inp.time :: spawn_times cos sin sqrt rest s2
          else spawn_times cos sin sqrt rest s2) := by
  obtain ⟨s2, h2, hc, hf, _, hn⟩ := frame_of_poll cos sin sqrt s inp c h
  refine ⟨s2, h2, hc, hf, ?_⟩
  by_cases hg : (fire_timer inp.time s.t_fire c).1 = control.CTRL_FIRE
  · simp [spawn_times, h2, hn, hg]
  · simp [spawn_times, h2, hn, hg]

/-- A key-down event with only SPACE pressed presents `CTRL_FIRE` to the fire timer. -/
theorem poll_fire_input {β : Type} (c : control) (t : β) :
    poll_event c (fire_input t).event (fire_input t).keyStates = some control.CTRL_FIRE := rfl

/-- The spawn times of two successive fire iterations at times `t1`, `t2` from a state with
last-shot time `t_fire`. -/
theorem spawn_times_two_fires (cos sin sqrt : α → α) (s : main_state α) (t1 t2 : α) :
    spawn_times cos sin sqrt [fire_input t1, fire_input t2] s =
      if t1 - s.t_fire < 1 then (if t2 - s.t_fire < 1 then [] else [t2])
      else (if t2 - t1 < 1 then [t1] else [t1, t2]) := by
  obtain ⟨s2, _, _, hf2, hst⟩ :=
    spawn_times_cons cos sin sqrt s (fire_input t1) [fire_input t2] _ (poll_fire_input _ t1)
  obtain ⟨s3, _, _, _, hst3⟩ :=
    spawn_times_cons cos sin sqrt s2 (fire_input t2) [] _ (poll_fire_input _ t2)
  rw [hst, hst3]
  simp only [fire_timer_fst, fire_timer_snd, hf2, fire_input, spawn_times]
  by_cases h1 : t1 - s.t_fire < 1 <;> by_cases h2 : t2 - s.t_fire < 1 <;>
    by_cases h3 : t2 - t1 < 1 <;> simp [h1, h2, h3]

/-- Every spawn time of a run is at least one second after the last-shot time of the state
the run starts from, and any two spawn times of the run are at least one second apart. -/
theorem spawn_times_spaced (cos sin sqrt : α → α) (frames : List (frame_input α)) :
    ∀ s : main_state α,
      (∀ x ∈ spawn_times cos sin sqrt frames s, s.t_fire + 1 ≤ x) ∧
        List.Pairwise (fun a b => a + 1 ≤ b) (spawn_times cos sin sqrt frames s) := by
  induction frames with
  | nil =>
    intro s
    simp [spawn_times]
  | cons inp rest ih =>
    intro s
    cases hp : poll_event s.player_ctrl inp.event inp.keyStates with
    | none =>
      have hq := (frame_of_quit cos sin sqrt s inp hp).1
      simp [spawn_times, hq]
    | some c =>
      obtain ⟨s2, _, _, hf, hst⟩ := spawn_times_cons cos sin sqrt s inp rest c hp
      obtain ⟨ihge, ihpw⟩ := ih s2
      rw [hst]
      by_cases hg : (fire_timer inp.time s.t_fire c).1 = control.CTRL_FIRE
      · obtain ⟨hc, hcool⟩ := (fire_timer_fire_iff inp.time s.t_fire c).mp hg
        have htf : s2.t_fire = inp.time := by
          rw [hf, fire_timer_snd]
          simp [hc, hcool]
        have hle : s.t_fire + 1 ≤ inp.time := by
          have := not_lt.mp hcool
          linarith
        have hrest : ∀ x ∈ spawn_times cos sin sqrt rest s2, inp.time + 1 ≤ x := by
          intro x hx
          have := ihge x hx
          rw [htf] at this
          exact this
        simp only [hg, if_true]
        refine ⟨?_, List.pairwise_cons.mpr ⟨hrest, ihpw⟩⟩
        intro x hx
        rcases List.mem_cons.mp hx with hx | hx
        · rw [hx]
          exact hle
        · have := hrest x hx
          linarith
      · have htf : s2.t_fire = s.t_fire := by
          rw [hf, fire_timer_snd]
          have hn : ¬ (c = control.CTRL_FIRE ∧ ¬ inp.time - s.t_fire < 1) := by
            intro h
            exact hg ((fire_timer_fire_iff inp.time s.t_fire c).mpr h)
          rw [if_neg hn]
        simp only [hg, if_false]
        refine ⟨?_, ihpw⟩
        intro x hx
        have := ihge x hx
        rw [htf] at this
        exact this

/-- A fire iteration exactly one second after the last shot pushes a projectile. -/
theorem spawn_count_at_cooldown (cos sin sqrt : α → α) (s : main_state α) :
    spawn_count cos sin s (fire_input (s.t_fire + 1)) = 1 := by
  obtain ⟨_, _, _, _, _, hn⟩ :=
    frame_of_poll cos sin sqrt s (fire_input (s.t_fire + 1)) _ (poll_fire_input _ _)
  rw [hn, fire_timer_fst]
  simp [fire_input]

/-- A fire iteration inside the cooldown: nothing is pushed, the last-shot time stays, and
the control stored for the next iteration is `CTRL_NONE`. -/
theorem frame_suppressed (cos sin sqrt : α → α) (s : main_state α) (inp : frame_input α)
    (hfire : poll_event s.player_ctrl inp.event inp.keyStates = some control.CTRL_FIRE)
    (hcool : inp.time - s.t_fire < 1) :
    ∃ s1, frame cos sin sqrt s inp = some s1 ∧ s1.player_ctrl = control.CTRL_NONE ∧
      s1.t_fire = s.t_fire ∧ spawn_count cos sin s inp = 0 := by
  obtain ⟨s1, h1, hc, hf, _, hn⟩ := frame_of_poll cos sin sqrt s inp _ hfire
  refine ⟨s1, h1, ?_, ?_, ?_⟩
  · rw [hc, fire_timer_fst]
    simp [hcool]
  · rw [hf, fire_timer_snd]
    simp [hcool]
  · rw [hn, fire_timer_fst]
    simp [hcool]

/-- Iterations without events from a state whose stored control is `CTRL_NONE`: the control
stays `CTRL_NONE`, the last-shot time stays, and nothing is pushed. -/
theorem idle_run (cos sin sqrt : α → α) (frames : List (frame_input α))
    (hidle : ∀ i ∈ frames, i.event = none) :
    ∀ s : main_state α, s.player_ctrl = control.CTRL_NONE →
      spawn_times cos sin sqrt frames s = [] ∧
        (run cos sin sqrt frames s).player_ctrl = control.CTRL_NONE ∧
        (run cos sin sqrt frames s).t_fire = s.t_fire := by
  induction frames with
  | nil =>
    intro s hs
    exact ⟨rfl, hs, rfl⟩
  | cons inp rest ih =>
    intro s hs
    have hev : inp.event = none := hidle inp (List.mem_cons_self _ _)
    have hp : poll_event s.player_ctrl inp.event inp.keyStates = some control.CTRL_NONE := by
      rw [hev, hs]
      rfl
    obtain ⟨s2, h2, hc, hf, hst⟩ := spawn_times_cons cos sin sqrt s inp rest _ hp
    have hc2 : s2.player_ctrl = control.CTRL_NONE := by
      rw [hc, fire_timer_fst]
      simp
    have hf2 : s2.t_fire = s.t_fire := by
      rw [hf, fire_timer_snd]
      simp
    obtain ⟨ih1, ih2, ih3⟩ := ih (fun i hi => hidle i (List.mem_cons_of_mem _ hi)) s2 hc2
    refine ⟨?_, ?_, ?_⟩
    · rw [hst, fire_timer_fst]
      simpa using ih1
    · simpa [run, h2] using ih2
    · simpa [run, h2, hf2] using ih3

/-- The fire times of a run whose first iteration has no quit event: the time of that
iteration, when the control reaching the fire timer is `CTRL_FIRE`, followed by the fire
times of the rest of the run from the next state. -/
theorem fire_times_cons (cos sin sqrt : α → α) (s : main_state α) (inp : frame_input α)
    (rest : List (frame_input α)) (c : control)
    (h : poll_event s.player_ctrl inp.event inp.keyStates = some c) :
    ∃ s2, frame cos sin sqrt s inp = some s2 ∧
      s2.player_ctrl = (fire_timer inp.time s.t_fire c).1 ∧
      s2.t_fire = (fire_timer inp.time s.t_fire c).2 ∧
      fire_times cos sin sqrt (inp :: rest) s =
        (if c = control.CTRL_FIRE then inp.time :: fire_times cos sin sqrt rest s2
          else fire_times cos sin sqrt rest s2) ∧
      spawn_times cos sin sqrt (inp :: rest) s =
        (if (fire_timer inp.time s.t_fire c).1 = control.CTRL_FIRE
          then inp.time :: spawn_times cos sin sqrt rest s2
          else spawn_times cos sin sqrt rest s2) := by
  obtain ⟨s2, h2, hc, hf, hst⟩ := spawn_times_cons cos sin sqrt s inp rest c h
  refine ⟨s2, h2, hc, hf, ?_, hst⟩
  by_cases hcf : c = control.CTRL_FIRE
  · simp [fire_times, h2, h, hcf]
  · simp [fire_times, h2, h, hcf]

/-- The spawning iterations of a run are those of its fire iterations that pass the fire
timer, the timer being restarted by each one that passes. -/
theorem spawn_times_eq_gate_filter (cos sin sqrt : α → α) (frames : List (frame_input α)) :
    ∀ s : main_state α,
      spawn_times cos sin sqrt frames s =
        gate_filter s.t_fire (fire_times cos sin sqrt frames s) := by
  induction frames with
  | nil =>
    intro s
    simp [spawn_times, fire_times, gate_filter]
  | cons inp rest ih =>
    intro s
    cases hp : poll_event s.player_ctrl inp.event inp.keyStates with
    | none =>
      have hq := (frame_of_quit cos sin sqrt s inp hp).1
      simp [spawn_times, fire_times, gate_filter, hq]
    | some c =>
      obtain ⟨s2, _, _, hf, hft, hst⟩ := fire_times_cons cos sin sqrt s inp rest c hp
      rw [hst, hft, ih s2, hf]
      by_cases hcf : c = control.CTRL_FIRE
      · subst hcf
        simp only [if_true, gate_filter]
      · have hg : ¬ (fire_timer inp.time s.t_fire c).1 = control.CTRL_FIRE := by
          intro h
          exact hcf ((fire_timer_fire_iff inp.time s.t_fire c).mp h).1
        have hsnd : (fire_timer inp.time s.t_fire c).2 = s.t_fire := by
          rw [fire_timer_snd]
          simp [hcf]
        simp only [hcf, hg, if_false, hsnd]

/-- The fire timer on two fire times: what passes, by the position of the two times
relative to the cooldown. -/
theorem gate_filter_two (t_fire t1 t2 : α) :
    gate_filter t_fire [t1, t2] =
      if t1 - t_fire < 1 then (if t2 - t_fire < 1 then [] else [t2])
      else (if t2 - t1 < 1 then [t1] else [t1, t2]) := by
  simp only [gate_filter, fire_timer_fst, fire_timer_snd]
  by_cases h1 : t1 - t_fire < 1 <;> by_cases h2 : t2 - t_fire < 1 <;>
    by_cases h3 : t2 - t1 < 1 <;> simp [h1, h2, h3]

/-- Iterations without key events from a state whose stored control is `CTRL_NONE`: the
control stays `CTRL_NONE`, the last-shot time stays, no iteration presents `CTRL_FIRE` to
the fire timer, and nothing is pushed. -/
theorem quiet_run (cos sin sqrt : α → α) (frames : List (frame_input α))
    (hquiet : ∀ i ∈ frames,
      i.event ≠ some event_type.SDL_KEYDOWN ∧ i.event ≠ some event_type.SDL_KEYUP) :
    ∀ s : main_state α, s.player_ctrl = control.CTRL_NONE →
      spawn_times cos sin sqrt frames s = [] ∧
        fire_times cos sin sqrt frames s = [] ∧
        (run cos sin sqrt frames s).player_ctrl = control.CTRL_NONE ∧
        (run cos sin sqrt frames s).t_fire = s.t_fire := by
  induction frames with
  | nil =>
    intro s hs
    exact ⟨rfl, rfl, hs, rfl⟩
  | cons inp rest ih =>
    intro s hs
    obtain ⟨hd, hu⟩ := hquiet inp (List.mem_cons_self _ _)
    have hp : poll_event s.player_ctrl inp.event inp.keyStates = none ∨
        poll_event s.player_ctrl inp.event inp.keyStates = some control.CTRL_NONE := by
      rcases hev : inp.event with _ | ev
      · right
        rw [hs]
        rfl
      · cases ev with
        | SDL_QUIT =>
          left
          rfl
        | SDL_KEYDOWN => exact absurd hev hd
        | SDL_KEYUP => exact absurd hev hu
        | other =>
          right
          rw [hs]
          rfl
    rcases hp with hp | hp
    · have hq := (frame_of_quit cos sin sqrt s inp hp).1
      refine ⟨by simp [spawn_times, hq], by simp [fire_times, hq], ?_, ?_⟩
      · simpa [run, hq] using hs
      · simp [run, hq]
    · obtain ⟨s2, h2, hc, hf, hft, hst⟩ := fire_times_cons cos sin sqrt s inp rest _ hp
      have hc2 : s2.player_ctrl = control.CTRL_NONE := by
        rw [hc, fire_timer_fst]
        simp
      have hf2 : s2.t_fire = s.t_fire := by
        rw [hf, fire_timer_snd]
        simp
      obtain ⟨ih1, ih2, ih3, ih4⟩ :=
        ih (fun i hi => hquiet i (List.mem_cons_of_mem _ hi)) s2 hc2
      refine ⟨?_, ?_, ?_, ?_⟩
      · rw [hst, fire_timer_fst]
        simpa using ih1
      · rw [hft]
        simpa using ih2
      · simpa [run, h2] using ih3
      · simpa [run, h2, hf2] using ih4

end FrameLoop

/-- C11 (refuted as stated): started at time `0`, fire iterations at `t1 = 1/2` and
`t2 = 3/4` (less than a second apart) spawn no projectile, and fire iterations at
`t1 = 1/2` and `t2 = 2` (more than a second apart) spawn one: the first shot falls inside
the cooldown counted from the initial last-shot time `0`. -/
theorem early_fire_suppressed :
    ((1 / 2 : ℝ) ≤ 3 / 4 ∧ (3 / 4 - 1 / 2 : ℝ) < 1 ∧
      (spawn_times Real.cos Real.sin Real.sqrt [fire_input (1 / 2), fire_input (3 / 4)]
        (main_init (0 : ℝ))).length ≠ 1) ∧
    ((1 / 2 : ℝ) ≤ 2 ∧ (2 - 1 / 2 : ℝ) > 1 ∧
      (spawn_times Real.cos Real.sin Real.sqrt [fire_input (1 / 2), fire_input 2]
        (main_init (0 : ℝ))).length ≠ 2) := by
  refine ⟨⟨by norm_num, by norm_num, ?_⟩, ⟨by norm_num, by norm_num, ?_⟩⟩
  · rw [spawn_times_two_fires]
    norm_num [main_init]
  · rw [spawn_times_two_fires]
    norm_num [main_init]

/-- The fire iterations of the run `[fire_input 1, idle_input (5/2) k]` from the initial
state at time `0`: the shot at `1` leaves `CTRL_FIRE` stored, so the iteration without event
at `5/2` presents `CTRL_FIRE` again. -/
theorem fire_times_stored (k : key_states) :
    fire_times Real.cos Real.sin Real.sqrt [fire_input 1, idle_input (5 / 2) k]
      (main_init (0 : ℝ)) = [1, 5 / 2] := by
  obtain ⟨s2, _, hc, _, hft, _⟩ := fire_times_cons Real.cos Real.sin Real.sqrt
    (main_init (0 : ℝ)) (fire_input 1) [idle_input (5 / 2) k] _ (poll_fire_input _ _)
  have hc2 : s2.player_ctrl = control.CTRL_FIRE := by
    rw [hc, fire_timer_fst]
    norm_num [fire_input, main_init]
  have hp2 : poll_event s2.player_ctrl (idle_input (5 / 2 : ℝ) k).event
      (idle_input (5 / 2 : ℝ) k).keyStates = some control.CTRL_FIRE := by
    rw [hc2]
    rfl
  obtain ⟨s3, _, _, _, hft3, _⟩ := fire_times_cons Real.cos Real.sin Real.sqrt
    s2 (idle_input (5 / 2) k) [] _ hp2
  rw [hft, hft3]
  simp [fire_times, fire_input, idle_input]

/-- The fire iterations of a run with an idle iteration before the first shot and a key-up
iteration between the two shots: only the iterations at `1` and `3/2` present
`CTRL_FIRE`. -/
theorem fire_times_spread (k : key_states) :
    fire_times Real.cos Real.sin Real.sqrt
      [idle_input (1 / 4) k, fire_input 1,
        ⟨5 / 4, some event_type.SDL_KEYUP, ⟨false, false, false, false, false⟩⟩,
        fire_input (3 / 2)]
      (main_init (0 : ℝ)) = [1, 3 / 2] := by
  have hp1 : poll_event (main_init (0 : ℝ)).player_ctrl (idle_input (1 / 4 : ℝ) k).event
      (idle_input (1 / 4 : ℝ) k).keyStates = some control.CTRL_NONE := rfl
  obtain ⟨s1, _, _, _, hft1, _⟩ := fire_times_cons Real.cos Real.sin Real.sqrt
    (main_init (0 : ℝ)) (idle_input (1 / 4) k)
    [fire_input 1, ⟨5 / 4, some event_type.SDL_KEYUP, ⟨false, false, false, false, false⟩⟩,
      fire_input (3 / 2)] _ hp1
  obtain ⟨s2, _, _, _, hft2, _⟩ := fire_times_cons Real.cos Real.sin Real.sqrt
    s1 (fire_input 1)
    [⟨5 / 4, some event_type.SDL_KEYUP, ⟨false, false, false, false, false⟩⟩,
      fire_input (3 / 2)] _ (poll_fire_input _ _)
  have hp3 : poll_event s2.player_ctrl
      (⟨5 / 4, some event_type.SDL_KEYUP, ⟨false, false, false, false, false⟩⟩ :
        frame_input ℝ).event
      (⟨5 / 4, some event_type.SDL_KEYUP, ⟨false, false, false, false, false⟩⟩ :
        frame_input ℝ).keyStates = some control.CTRL_NONE := rfl
  obtain ⟨s3, _, _, _, hft3, _⟩ := fire_times_cons Real.cos Real.sin Real.sqrt
    s2 ⟨5 / 4, some event_type.SDL_KEYUP, ⟨false, false, false, false, false⟩⟩
    [fire_input (3 / 2)] _ hp3
  obtain ⟨s4, _, _, _, hft4, _⟩ := fire_times_cons Real.cos Real.sin Real.sqrt
    s3 (fire_input (3 / 2)) [] _ (poll_fire_input _ _)
  rw [hft1, hft2, hft3, hft4]
  simp [fire_times, fire_input]

/-- C11 (amended): in the frame loop started from its initial state (last-shot time `0`, no
projectiles), for every run in which the iterations whose control reaches the fire timer
as `CTRL_FIRE` are exactly two, at times `t1` and then `t2`, with `t1 >= 1`, whatever other
iterations the run has and however the control became `CTRL_FIRE`: if `t2 - t1 < 1` exactly
one projectile is spawned, at `t1`, and if `t2 - t1 >= 1` (in particular `> 1`) exactly two,
at `t1` and `t2`. -/
theorem two_fires_count (t0 : ℝ) (frames : List (frame_input ℝ)) (t1 t2 : ℝ)
    (hfire : fire_times Real.cos Real.sin Real.sqrt frames (main_init t0) = [t1, t2])
    (h1 : 1 ≤ t1) :
    (t2 - t1 < 1 →
      spawn_times Real.cos Real.sin Real.sqrt frames (main_init t0) = [t1] ∧
        (spawn_times Real.cos Real.sin Real.sqrt frames (main_init t0)).length = 1) ∧
    (1 ≤ t2 - t1 →
      spawn_times Real.cos Real.sin Real.sqrt frames (main_init t0) = [t1, t2] ∧
        (spawn_times Real.cos Real.sin Real.sqrt frames (main_init t0)).length = 2) := by
  have h0 : ¬ t1 - (main_init t0).t_fire < 1 := by
    simp only [main_init]
    linarith
  rw [spawn_times_eq_gate_filter, hfire, gate_filter_two]
  constructor
  · intro h
    simp [h0, h]
  · intro h
    have h3 : ¬ t2 - t1 < 1 := not_lt.mpr h
    simp [h0, h3]

/-- C11 (amended) on two runs from time `0`: shots at `1` and `3/2` with an idle iteration
before and a key-up iteration between them (one projectile), and a shot at `1` followed by
an iteration without event at `5/2` that presents the stored `CTRL_FIRE` (two). -/
theorem two_fires_count_witness :
    (fire_times Real.cos Real.sin Real.sqrt
        [idle_input (1 / 4) ⟨false, false, false, false, false⟩, fire_input 1,
          ⟨5 / 4, some event_type.SDL_KEYUP, ⟨false, false, false, false, false⟩⟩,
          fire_input (3 / 2)]
        (main_init (0 : ℝ)) = [1, 3 / 2] ∧
      (1 : ℝ) ≤ 1 ∧ (3 / 2 - 1 : ℝ) < 1 ∧
      spawn_times Real.cos Real.sin Real.sqrt
        [idle_input (1 / 4) ⟨false, false, false, false, false⟩, fire_input 1,
          ⟨5 / 4, some event_type.SDL_KEYUP, ⟨false, false, false, false, false⟩⟩,
          fire_input (3 / 2)]
        (main_init (0 : ℝ)) = [1]) ∧
    (fire_times Real.cos Real.sin Real.sqrt
        [fire_input 1, idle_input (5 / 2) ⟨false, false, false, false, true⟩]
        (main_init (0 : ℝ)) = [1, 5 / 2] ∧
      (1 : ℝ) ≤ 1 ∧ (1 : ℝ) ≤ 5 / 2 - 1 ∧
      spawn_times Real.cos Real.sin Real.sqrt
        [fire_input 1, idle_input (5 / 2) ⟨false, false, false, false, true⟩]
        (main_init (0 : ℝ)) = [1, 5 / 2]) :=
  ⟨⟨fire_times_spread _, le_refl _, by norm_num,
      ((two_fires_count 0 _ 1 (3 / 2) (fire_times_spread _) (le_refl _)).1 (by norm_num)).1⟩,
    ⟨fire_times_stored _, le_refl _, by norm_num,
      ((two_fires_count 0 _ 1 (5 / 2) (fire_times_stored _) (le_refl _)).2 (by norm_num)).1⟩⟩

/-- C12: in every run of the frame loop from its initial state, over any sequence of frame
inputs, any two iterations that spawn a projectile have times at least `1.0` apart, and a
fire iteration exactly `1.0` after the last shot does spawn. -/
theorem spawns_one_second_apart :
    (∀ (t0 : ℝ) (frames : List (frame_input ℝ)),
      List.Pairwise (fun a b => a + 1 ≤ b)
        (spawn_times Real.cos Real.sin Real.sqrt frames (main_init t0))) ∧
    (∀ (s : main_state ℝ) (frames : List (frame_input ℝ)),
      List.Pairwise (fun a b => a + 1 ≤ b) (spawn_times Real.cos Real.sin Real.sqrt frames s)) ∧
    (∀ s : main_state ℝ,
      spawn_count Real.cos Real.sin s (fire_input (s.t_fire + 1)) = 1) :=
  ⟨fun t0 frames => (spawn_times_spaced Real.cos Real.sin Real.sqrt frames (main_init t0)).2,
    fun s frames => (spawn_times_spaced Real.cos Real.sin Real.sqrt frames s).2,
    fun s => spawn_count_at_cooldown Real.cos Real.sin Real.sqrt s⟩

/-- C13 (refuted as stated): started at time `0`, a fire iteration at `t = 1/2` is
suppressed; in the next iteration at `t = 3/2`, with SPACE still held and no key event,
the control presented to the fire timer is `CTRL_NONE`, not `CTRL_FIRE`, and no projectile
is spawned although `3/2` is at least one second after the last-shot time. -/
theorem suppression_not_frame_local :
    ∃ s1 : main_state ℝ,
      frame Real.cos Real.sin Real.sqrt (main_init 0) (fire_input (1 / 2)) = some s1 ∧
      spawn_count Real.cos Real.sin (main_init (0 : ℝ)) (fire_input (1 / 2)) = 0 ∧
      s1.t_fire + 1 ≤ 3 / 2 ∧
      poll_event s1.player_ctrl
          (idle_input (3 / 2 : ℝ) ⟨false, false, false, false, true⟩).event
          (idle_input (3 / 2 : ℝ) ⟨false, false, false, false, true⟩).keyStates ≠
        some control.CTRL_FIRE ∧
      spawn_times Real.cos Real.sin Real.sqrt
        [idle_input (3 / 2) ⟨false, false, false, false, true⟩] s1 = [] := by
  have hcool : (fire_input (1 / 2 : ℝ)).time - (main_init (0 : ℝ)).t_fire < 1 := by
    norm_num [fire_input, main_init]
  obtain ⟨s1, h1, hc, hf, hn⟩ := frame_suppressed Real.cos Real.sin Real.sqrt (main_init 0)
    (fire_input (1 / 2)) (poll_fire_input _ _) hcool
  refine ⟨s1, h1, hn, ?_, ?_, ?_⟩
  · rw [hf]
    norm_num [main_init]
  · rw [hc]
    simp [idle_input, poll_event]
  · exact (idle_run Real.cos Real.sin Real.sqrt _ (by simp [idle_input]) s1 hc).1

/-- C13 (amended): when the fire-rate gate suppresses `CTRL_FIRE` in an iteration, the
stored control becomes `CTRL_NONE` and nothing is spawned; in the following iterations, as
long as none of them carries a key event (`SDL_KEYDOWN` or `SDL_KEYUP`), the stored control
stays `CTRL_NONE`, the control that reaches the gate is the stored one (without event or
with another kind of event), so it is never `CTRL_FIRE`, and no projectile is spawned,
however late those iterations are; on a key event the control is read anew from the
keyboard by `key2ctrl`. -/
theorem suppression_persists (s : main_state ℝ) (inp : frame_input ℝ)
    (frames : List (frame_input ℝ))
    (hfire : poll_event s.player_ctrl inp.event inp.keyStates = some control.CTRL_FIRE)
    (hcool : inp.time - s.t_fire < 1)
    (hquiet : ∀ i ∈ frames,
      i.event ≠ some event_type.SDL_KEYDOWN ∧ i.event ≠ some event_type.SDL_KEYUP) :
    ∃ s1 : main_state ℝ,
      frame Real.cos Real.sin Real.sqrt s inp = some s1 ∧
      s1.player_ctrl = control.CTRL_NONE ∧
      spawn_count Real.cos Real.sin s inp = 0 ∧
      (∀ n : Nat, (run Real.cos Real.sin Real.sqrt (frames.take n) s1).player_ctrl =
        control.CTRL_NONE) ∧
      (∀ (c : control) (k : key_states),
        poll_event c none k = some c ∧ poll_event c (some event_type.other) k = some c) ∧
      fire_times Real.cos Real.sin Real.sqrt frames s1 = [] ∧
      spawn_times Real.cos Real.sin Real.sqrt frames s1 = [] ∧
      (∀ (c : control) (k : key_states),
        poll_event c (some event_type.SDL_KEYDOWN) k = some (key2ctrl k) ∧
          poll_event c (some event_type.SDL_KEYUP) k = some (key2ctrl k)) := by
  obtain ⟨s1, h1, hc, _, hn⟩ := frame_suppressed Real.cos Real.sin Real.sqrt s inp hfire hcool
  obtain ⟨q1, q2, _, _⟩ := quiet_run Real.cos Real.sin Real.sqrt frames hquiet s1 hc
  refine ⟨s1, h1, hc, hn, ?_, fun c k => ⟨rfl, rfl⟩, q2, q1, fun c k => ⟨rfl, rfl⟩⟩
  intro n
  exact (quiet_run Real.cos Real.sin Real.sqrt (frames.take n)
    (fun i hi => hquiet i (List.mem_of_mem_take hi)) s1 hc).2.2.1

/-- C13 (amended) for a fire iteration at `t = 1/2` from the initial state, followed by an
iteration without event at `t = 3/2`, one with an event that is no key event at `t = 2` and
one without event at `t = 5/2`, SPACE being held throughout. -/
theorem suppression_persists_witness :
    poll_event (main_init (0 : ℝ)).player_ctrl (fire_input (1 / 2 : ℝ)).event
        (fire_input (1 / 2 : ℝ)).keyStates = some control.CTRL_FIRE ∧
    (fire_input (1 / 2 : ℝ)).time - (main_init (0 : ℝ)).t_fire < 1 ∧
    (∀ i ∈ [idle_input (3 / 2 : ℝ) ⟨false, false, false, false, true⟩,
        ⟨2, some event_type.other, ⟨false, false, false, false, true⟩⟩,
        idle_input (5 / 2 : ℝ) ⟨false, false, false, false, true⟩],
      i.event ≠ some event_type.SDL_KEYDOWN ∧ i.event ≠ some event_type.SDL_KEYUP) ∧
    ∃ s1 : main_state ℝ,
      frame Real.cos Real.sin Real.sqrt (main_init 0) (fire_input (1 / 2)) = some s1 ∧
      s1.player_ctrl = control.CTRL_NONE ∧
      spawn_count Real.cos Real.sin (main_init 0) (fire_input (1 / 2)) = 0 ∧
      (∀ n : Nat, (run Real.cos Real.sin Real.sqrt
        ([idle_input (3 / 2 : ℝ) ⟨false, false, false, false, true⟩,
          ⟨2, some event_type.other, ⟨false, false, false, false, true⟩⟩,
          idle_input (5 / 2 : ℝ) ⟨false, false, false, false, true⟩].take n) s1).player_ctrl =
        control.CTRL_NONE) ∧
      (∀ (c : control) (k : key_states),
        poll_event c none k = some c ∧ poll_event c (some event_type.other) k = some c) ∧
      fire_times Real.cos Real.sin Real.sqrt
        [idle_input (3 / 2 : ℝ) ⟨false, false, false, false, true⟩,
          ⟨2, some event_type.other, ⟨false, false, false, false, true⟩⟩,
          idle_input (5 / 2 : ℝ) ⟨false, false, false, false, true⟩] s1 = [] ∧
      spawn_times Real.cos Real.sin Real.sqrt
        [idle_input (3 / 2 : ℝ) ⟨false, false, false, false, true⟩,
          ⟨2, some event_type.other, ⟨false, false, false, false, true⟩⟩,
          idle_input (5 / 2 : ℝ) ⟨false, false, false, false, true⟩] s1 = [] ∧
      (∀ (c : control) (k : key_states),
        poll_event c (some event_type.SDL_KEYDOWN) k = some (key2ctrl k) ∧
          poll_event c (some event_type.SDL_KEYUP) k = some (key2ctrl k)) :=
  ⟨rfl, by norm_num [fire_input, main_init], by simp [idle_input],
    suppression_persists (main_init 0) (fire_input (1 / 2)) _ rfl
      (by norm_num [fire_input, main_init]) (by simp [idle_input])⟩

/-- C14: for every combination of the five key states, `key2ctrl` returns the control of
the first pressed key in the order W (FORWARD), S (BACKWARD), A (TURN_L), D (TURN_R),
SPACE (FIRE), and `CTRL_NONE` if and only if no key is pressed. -/
theorem key2ctrl_priority (k : key_states) :
    key2ctrl k =
        (([(k.SDL_SCANCODE_W, control.CTRL_FORWARD), (k.SDL_SCANCODE_S, control.CTRL_BACKWARD),
            (k.SDL_SCANCODE_A, control.CTRL_TURN_L), (k.SDL_SCANCODE_D, control.CTRL_TURN_R),
            (k.SDL_SCANCODE_SPACE, control.CTRL_FIRE)].filter (fun p => p.1)).map
          (fun p => p.2)).headD control.CTRL_NONE ∧
      (key2ctrl k = control.CTRL_NONE ↔
        (k.SDL_SCANCODE_W = false ∧ k.SDL_SCANCODE_S = false ∧ k.SDL_SCANCODE_A = false ∧
          k.SDL_SCANCODE_D = false ∧ k.SDL_SCANCODE_SPACE = false)) := by
  rcases k with ⟨w, s, a, d, sp⟩
  cases w <;> cases s <;> cases a <;> cases d <;> cases sp <;> decide

/-- The state of the player after `k` frames of FORWARD at `dt = 1/50` from rest at the
origin with heading `0`: velocity `(2k, 0, 0)`, position `(k(k-1)/50, 0, 0)`; up to
`k = 200` the cap leaves every frame untouched. -/
theorem forward_frames (k : Nat) (hk : k ≤ 200) (acc : vector3d ℝ) :
    ∃ acc2 : vector3d ℝ,
      (fun e : entity ℝ =>
          cap_vel ((handle_controls Real.cos Real.sin e control.CTRL_FORWARD).act (1 / 50)))^[k]
        ⟨⟨0, 0, 0⟩, ⟨0, 0, 0⟩, acc⟩ =
      ⟨⟨(k : ℝ) * ((k : ℝ) - 1) / 50, 0, 0⟩, ⟨2 * (k : ℝ), 0, 0⟩, acc2⟩ := by
  induction k with
  | zero => exact ⟨acc, by simp⟩
  | succ k ih =>
    obtain ⟨acc2, h⟩ := ih (by omega)
    have hk2 : (k : ℝ) + 1 ≤ 200 := by exact_mod_cast hk
    have hk0 : (0 : ℝ) ≤ (k : ℝ) := Nat.cast_nonneg k
    refine ⟨⟨100, 0, 0⟩, ?_⟩
    rw [Function.iterate_succ_apply', h]
    have h1 : ¬ (2 * (k : ℝ) + 100 * (1 / 50) > 400) := by
      rw [not_lt]
      linarith
    have h2 : ¬ (2 * (k : ℝ) + 100 * (1 / 50) < -400) := by
      rw [not_lt]
      linarith
    simp only [handle_controls, entity.act, vector3d.add, vector3d.scale, vector3d.zero,
      cap_vel, F_ACC_MAG, X_VEL_CAP, Y_VEL_CAP, Z_VEL_CAP, Nat.cast_ofNat, Real.cos_zero,
      Real.sin_zero, mul_one, mul_zero, zero_mul, add_zero, h1, h2, if_false]
    norm_num
    constructor
    · ring
    · ring

/-- One frame of FORWARD at `dt = 1/50` with heading `0` and velocity `(v, 0, 0)`,
`0 <= v <= 398`: the velocity grows by `2`, the position by `v/50`, and `cap_vel` returns
its argument unchanged. -/
theorem forward_step (x v : ℝ) (acc : vector3d ℝ) (hv0 : 0 ≤ v) (hv : v ≤ 398) :
    (handle_controls Real.cos Real.sin ⟨⟨x, 0, 0⟩, ⟨v, 0, 0⟩, acc⟩ control.CTRL_FORWARD).act
        (1 / 50) = ⟨⟨x + v / 50, 0, 0⟩, ⟨v + 2, 0, 0⟩, ⟨100, 0, 0⟩⟩ ∧
      cap_vel (⟨⟨x + v / 50, 0, 0⟩, ⟨v + 2, 0, 0⟩, ⟨100, 0, 0⟩⟩ : entity ℝ) =
        ⟨⟨x + v / 50, 0, 0⟩, ⟨v + 2, 0, 0⟩, ⟨100, 0, 0⟩⟩ := by
  constructor
  · simp only [handle_controls, entity.act, vector3d.add, vector3d.scale, vector3d.zero,
      F_ACC_MAG, Real.cos_zero, Real.sin_zero, mul_one, mul_zero, zero_mul, add_zero]
    norm_num
    ring
  · have h1 : ¬ (v + 2 > 400) := by
      rw [not_lt]
      linarith
    have h2 : ¬ (v + 2 < -400) := by
      rw [not_lt]
      linarith
    simp only [cap_vel, X_VEL_CAP, Y_VEL_CAP, Z_VEL_CAP, Nat.cast_ofNat, h1, h2, if_false]
    norm_num

/-- C15: from rest at the origin with heading `0`, one hundred frames of
`handle_controls(FORWARD)`, `act(0.02)`, `cap_vel` end with velocity exactly `(200,0,0)`,
within the cap `400`, and position exactly `(198,0,0)` with heading still `0`; in each of
the hundred frames `cap_vel` returns the entity it receives unchanged. -/
theorem forward_two_seconds :
    ((fun e : entity ℝ =>
          cap_vel ((handle_controls Real.cos Real.sin e control.CTRL_FORWARD).act 0.02))^[100]
        ⟨⟨0, 0, 0⟩, ⟨0, 0, 0⟩, ⟨0, 0, 0⟩⟩).vel = ⟨200, 0, 0⟩ ∧
    ((fun e : entity ℝ =>
          cap_vel ((handle_controls Real.cos Real.sin e control.CTRL_FORWARD).act 0.02))^[100]
        ⟨⟨0, 0, 0⟩, ⟨0, 0, 0⟩, ⟨0, 0, 0⟩⟩).pos = ⟨198, 0, 0⟩ ∧
    (200 : ℝ) ≤ X_VEL_CAP ∧
    (∀ k : Fin 100,
      cap_vel ((handle_controls Real.cos Real.sin
          ((fun e : entity ℝ =>
              cap_vel ((handle_controls Real.cos Real.sin e control.CTRL_FORWARD).act 0.02))^[k.val]
            ⟨⟨0, 0, 0⟩, ⟨0, 0, 0⟩, ⟨0, 0, 0⟩⟩) control.CTRL_FORWARD).act 0.02) =
        (handle_controls Real.cos Real.sin
          ((fun e : entity ℝ =>
              cap_vel ((handle_controls Real.cos Real.sin e control.CTRL_FORWARD).act 0.02))^[k.val]
            ⟨⟨0, 0, 0⟩, ⟨0, 0, 0⟩, ⟨0, 0, 0⟩⟩) control.CTRL_FORWARD).act 0.02) := by
  have hdt : (0.02 : ℝ) = 1 / 50 := by norm_num
  rw [hdt]
  obtain ⟨acc2, h⟩ := forward_frames 100 (by norm_num) ⟨0, 0, 0⟩
  refine ⟨?_, ?_, by norm_num [X_VEL_CAP], ?_⟩
  · rw [h]
    norm_num
  · rw [h]
    norm_num
  · intro k
    obtain ⟨acc3, hk⟩ := forward_frames k.val (by have := k.isLt; omega) ⟨0, 0, 0⟩
    have hk0 : (0 : ℝ) ≤ (k.val : ℝ) := Nat.cast_nonneg _
    have hk1 : (k.val : ℝ) ≤ 99 := by
      have := k.isLt
      exact_mod_cast Nat.lt_succ_iff.mp this
    obtain ⟨hs1, hs2⟩ := forward_step ((k.val : ℝ) * ((k.val : ℝ) - 1) / 50) (2 * (k.val : ℝ))
      acc3 (by linarith) (by linarith)
    rw [hk, hs1, hs2]

/-! ### The two projectile vectors in step -/

section PairedLists

variable {α : Type} [LinearOrderedField α]

/-- The loop invariant of `cull_loop` on both vectors: with the unprocessed projectiles and
their renderables given as the list of pairs `Q`, the loop keeps, in both vectors, exactly
the positions of `Q` whose advanced projectile has distance at most `400`, and the two
iterators end at equal offsets when they start at equal offsets. -/
theorem cull_loop_pairs (sqrt : α → α) (dt : α) (fuel : Nat) :
    ∀ (pre : List (projectile α)) (Rpre : List renderable)
      (Q : List (projectile α × renderable)), Q.length ≤ fuel →
      (cull_loop sqrt dt fuel
          ⟨pre ++ Q.map Prod.fst, Rpre ++ Q.map Prod.snd, pre.length, Rpre.length⟩).proj_list =
        pre ++ (Q.filter (fun pr => decide ((pr.1.act sqrt dt).d ≤ 400))).map
          (fun pr => pr.1.act sqrt dt) ∧
      (cull_loop sqrt dt fuel
          ⟨pre ++ Q.map Prod.fst, Rpre ++ Q.map Prod.snd, pre.length,
            Rpre.length⟩).proj_render_list =
        Rpre ++ (Q.filter (fun pr => decide ((pr.1.act sqrt dt).d ≤ 400))).map Prod.snd := by
  induction fuel with
  | zero =>
    intro pre Rpre Q h
    have hq : Q = [] := List.length_eq_zero.mp (Nat.le_zero.mp h)
    subst hq
    simp [cull_loop]
  | succ fuel ih =>
    intro pre Rpre Q h
    cases Q with
    | nil => simp [cull_loop]
    | cons pr Q =>
      obtain ⟨p, r⟩ := pr
      have hlen : Q.length ≤ fuel := by simpa using h
      have hget : ∀ h : pre.length < (pre ++ p :: Q.map Prod.fst).length,
          (pre ++ p :: Q.map Prod.fst)[pre.length] = p := by
        intro h
        rw [List.getElem_append_right (le_refl _)]
        simp
      by_cases hd : (p.act sqrt dt).d > 400
      · have hstep : cull_loop sqrt dt (fuel + 1)
              ⟨pre ++ ((p, r) :: Q).map Prod.fst, Rpre ++ ((p, r) :: Q).map Prod.snd,
                pre.length, Rpre.length⟩ =
            cull_loop sqrt dt fuel
              ⟨pre ++ Q.map Prod.fst, Rpre ++ Q.map Prod.snd, pre.length, Rpre.length⟩ := by
          simp [cull_loop, hget, hd, List.eraseIdx_append_of_length_le]
        rw [hstep]
        have hf : ¬ (p.act sqrt dt).d ≤ 400 := not_le.mpr hd
        simpa [List.filter_cons, hf] using ih pre Rpre Q hlen
      · have hstep : cull_loop sqrt dt (fuel + 1)
              ⟨pre ++ ((p, r) :: Q).map Prod.fst, Rpre ++ ((p, r) :: Q).map Prod.snd,
                pre.length, Rpre.length⟩ =
            cull_loop sqrt dt fuel
              ⟨(pre ++ [p.act sqrt dt]) ++ Q.map Prod.fst, (Rpre ++ [r]) ++ Q.map Prod.snd,
                (pre ++ [p.act sqrt dt]).length, (Rpre ++ [r]).length⟩ := by
          simp [cull_loop, hget, hd]
        rw [hstep]
        have hf : (p.act sqrt dt).d ≤ 400 := not_lt.mp hd
        simpa [List.filter_cons, hf] using ih (pre ++ [p.act sqrt dt]) (Rpre ++ [r]) Q hlen

/-- The advance-and-cull loop on paired vectors: both vectors keep the same positions. -/
theorem advance_and_cull_pairs (sqrt : α → α) (dt : α) (Q : List (projectile α × renderable)) :
    (advance_and_cull sqrt dt (Q.map Prod.fst) (Q.map Prod.snd)).proj_list =
        (Q.filter (fun pr => decide ((pr.1.act sqrt dt).d ≤ 400))).map
          (fun pr => pr.1.act sqrt dt) ∧
      (advance_and_cull sqrt dt (Q.map Prod.fst) (Q.map Prod.snd)).proj_render_list =
        (Q.filter (fun pr => decide ((pr.1.act sqrt dt).d ≤ 400))).map Prod.snd := by
  have h := cull_loop_pairs sqrt dt (Q.map Prod.fst).length [] [] Q (by simp)
  simpa [advance_and_cull] using h

/-- The advance-and-cull loop keeps two vectors of equal length at equal length. -/
theorem advance_and_cull_lengths (sqrt : α → α) (dt : α) (L : List (projectile α))
    (R : List renderable) (h : L.length = R.length) :
    (advance_and_cull sqrt dt L R).proj_list.length =
      (advance_and_cull sqrt dt L R).proj_render_list.length := by
  have hL : (L.zip R).map Prod.fst = L := List.map_fst_zip L R (le_of_eq h)
  have hR : (L.zip R).map Prod.snd = R := List.map_snd_zip L R (le_of_eq h.symm)
  obtain ⟨h1, h2⟩ := advance_and_cull_pairs sqrt dt (L.zip R)
  rw [hL, hR] at h1 h2
  rw [h1, h2, List.length_map, List.length_map]

/-- One iteration of `main` keeps the two projectile vectors at equal length. -/
theorem frame_lengths (cos sin sqrt : α → α) (s s2 : main_state α) (inp : frame_input α)
    (h : s.proj_list.length = s.proj_render_list.length)
    (hf : frame cos sin sqrt s inp = some s2) :
    s2.proj_list.length = s2.proj_render_list.length := by
  cases hp : poll_event s.player_ctrl inp.event inp.keyStates with
  | none =>
    rw [(frame_of_quit cos sin sqrt s inp hp).1] at hf
    cases hf
  | some c =>
    obtain ⟨s1, h1, _, _, _, _, hl, hr⟩ := frame_controls_of_poll cos sin s inp c hp
    have h12 : s1.proj_list.length = s1.proj_render_list.length := by
      rw [hl, hr, h]
    have hs2 : s2 = frame_act sqrt s1 := by
      simp [frame, h1] at hf
      exact hf.symm
    rw [hs2]
    exact advance_and_cull_lengths sqrt s1.dt s1.proj_list s1.proj_render_list h12

/-- Every run of the loop of `main` keeps the two projectile vectors at equal length. -/
theorem run_lengths (cos sin sqrt : α → α) (frames : List (frame_input α)) :
    ∀ s : main_state α, s.proj_list.length = s.proj_render_list.length →
      (run cos sin sqrt frames s).proj_list.length =
        (run cos sin sqrt frames s).proj_render_list.length := by
  induction frames with
  | nil =>
    intro s h
    exact h
  | cons inp rest ih =>
    intro s h
    cases hf : frame cos sin sqrt s inp with
    | none => simpa [run, hf] using h
    | some s2 =>
      have := ih s2 (frame_lengths cos sin sqrt s s2 inp h hf)
      simpa [run, hf] using this

end PairedLists

/-- C16: in every state reached by the frame loop from its initial state the projectile
list and the projectile render list have the same length; `spawn_projectile` appends one
element to each; and the cull loop keeps in both lists exactly the same positions, those
of the projectiles whose distance after the advance is at most `400`. -/
theorem lists_same_length :
    (∀ (t0 : ℝ) (frames : List (frame_input ℝ)),
      (run Real.cos Real.sin Real.sqrt frames (main_init t0)).proj_list.length =
        (run Real.cos Real.sin Real.sqrt frames (main_init t0)).proj_render_list.length) ∧
    (∀ (src : entity ℝ) (L : List (projectile ℝ)) (R : List renderable),
      (spawn_projectile Real.cos Real.sin src L R).2.1.length = L.length + 1 ∧
        (spawn_projectile Real.cos Real.sin src L R).2.2.length = R.length + 1) ∧
    (∀ (dt : ℝ) (Q : List (projectile ℝ × renderable)),
      (advance_and_cull Real.sqrt dt (Q.map Prod.fst) (Q.map Prod.snd)).proj_list =
          (Q.filter (fun pr => decide ((pr.1.act Real.sqrt dt).d ≤ 400))).map
            (fun pr => pr.1.act Real.sqrt dt) ∧
        (advance_and_cull Real.sqrt dt (Q.map Prod.fst) (Q.map Prod.snd)).proj_render_list =
          (Q.filter (fun pr => decide ((pr.1.act Real.sqrt dt).d ≤ 400))).map Prod.snd) := by
  refine ⟨?_, ?_, ?_⟩
  · intro t0 frames
    exact run_lengths Real.cos Real.sin Real.sqrt frames (main_init t0) rfl
  · intro src L R
    simp [spawn_projectile]
  · intro dt Q
    exact advance_and_cull_pairs Real.sqrt dt Q

/-- The magnitude of a vector along the positive `x` axis. -/
theorem mag_along_x (a : ℝ) (ha : 0 ≤ a) : vector3d.mag Real.sqrt ⟨a, 0, 0⟩ = a := by
  simp [vector3d.mag, Real.sqrt_mul_self ha]

/-- The first iteration of the run of C17: a shot at time `2` from the initial state at
time `0`; the projectile has travelled `200` at the end of the iteration. -/
theorem first_shot_frame :
    frame Real.cos Real.sin Real.sqrt (main_init (0 : ℝ)) (fire_input 2) =
      some ⟨⟨⟨0, 0, 0⟩, ⟨0, 0, 0⟩, ⟨0, 0, 0⟩⟩, control.CTRL_FIRE,
        [⟨⟨⟨200, 0, 0⟩, ⟨100, 0, 0⟩, ⟨0, 0, 0⟩⟩, 200⟩],
        [⟨entity_ptr.player, renderable_type.PLAYER⟩],
        [⟨entity_ptr.proj_slot 0, renderable_type.PROJECTILE⟩], 2, 2, 2⟩ := by
  have hm := mag_along_x 200 (by norm_num)
  norm_num [frame, frame_controls, frame_act, main_init, fire_input, poll_event, key2ctrl,
    fire_timer, handle_controls, spawn_projectile, vector3d.zero, vector3d.add, entity.act,
    vector3d.scale, cap_vel, X_VEL_CAP, Y_VEL_CAP, Z_VEL_CAP, advance_and_cull, cull_loop,
    projectile.act, hm]

/-- The second iteration of the run of C17: at time `5`, without event, the stored
`CTRL_FIRE` passes the timer and a second projectile is pushed; the first one reaches
distance `500` and is erased, together with the renderable at index `0`. -/
theorem second_shot_frame (k : key_states) :
    frame Real.cos Real.sin Real.sqrt
        (⟨⟨⟨0, 0, 0⟩, ⟨0, 0, 0⟩, ⟨0, 0, 0⟩⟩, control.CTRL_FIRE,
          [⟨⟨⟨200, 0, 0⟩, ⟨100, 0, 0⟩, ⟨0, 0, 0⟩⟩, 200⟩],
          [⟨entity_ptr.player, renderable_type.PLAYER⟩],
          [⟨entity_ptr.proj_slot 0, renderable_type.PROJECTILE⟩], 2, 2, 2⟩ : main_state ℝ)
        (idle_input 5 k) =
      some ⟨⟨⟨0, 0, 0⟩, ⟨0, 0, 0⟩, ⟨0, 0, 0⟩⟩, control.CTRL_FIRE,
        [⟨⟨⟨300, 0, 0⟩, ⟨100, 0, 0⟩, ⟨0, 0, 0⟩⟩, 300⟩],
        [⟨entity_ptr.player, renderable_type.PLAYER⟩],
        [⟨entity_ptr.proj_slot 1, renderable_type.PROJECTILE⟩], 5, 5, 3⟩ := by
  have hm := mag_along_x 300 (by norm_num)
  norm_num [frame, frame_controls, frame_act, idle_input, poll_event,
    fire_timer, handle_controls, spawn_projectile, vector3d.zero, vector3d.add, entity.act,
    vector3d.scale, cap_vel, X_VEL_CAP, Y_VEL_CAP, Z_VEL_CAP, advance_and_cull, cull_loop,
    projectile.act, hm]

/-- C17 (fails on the code): a shot at time `2` and, with the fire control still stored, a
second shot at time `5` leave one live projectile, at offset `0` of the projectile vector,
while the only renderable refers to offset `1`, past the end of the vector: the pairing of
renderables and live projectiles is broken in a reachable state. -/
theorem stale_render_reference :
    (run Real.cos Real.sin Real.sqrt
        [fire_input 2, idle_input 5 ⟨false, false, false, false, true⟩]
        (main_init (0 : ℝ))).proj_list.length = 1 ∧
    (run Real.cos Real.sin Real.sqrt
        [fire_input 2, idle_input 5 ⟨false, false, false, false, true⟩]
        (main_init (0 : ℝ))).proj_render_list =
      [⟨entity_ptr.proj_slot 1, renderable_type.PROJECTILE⟩] ∧
    ¬ render_refs_live (run Real.cos Real.sin Real.sqrt
        [fire_input 2, idle_input 5 ⟨false, false, false, false, true⟩]
        (main_init (0 : ℝ))) := by
  have hrun : run Real.cos Real.sin Real.sqrt
      [fire_input 2, idle_input 5 ⟨false, false, false, false, true⟩] (main_init (0 : ℝ)) =
      ⟨⟨⟨0, 0, 0⟩, ⟨0, 0, 0⟩, ⟨0, 0, 0⟩⟩, control.CTRL_FIRE,
        [⟨⟨⟨300, 0, 0⟩, ⟨100, 0, 0⟩, ⟨0, 0, 0⟩⟩, 300⟩],
        [⟨entity_ptr.player, renderable_type.PLAYER⟩],
        [⟨entity_ptr.proj_slot 1, renderable_type.PROJECTILE⟩], 5, 5, 3⟩ := by
    simp only [run, first_shot_frame, second_shot_frame]
  rw [hrun]
  refine ⟨rfl, rfl, ?_⟩
  simp [render_refs_live, List.range_succ]

/-! ### Repeated velocity caps -/

/-- A clamped value lies in its range, and clamping a value of the range returns it. -/
theorem clamp_facts (c v : ℝ) (hc : 0 < c) :
    (¬ c < max (-c) (min c v) ∧ ¬ max (-c) (min c v) < -c) ∧
      ((¬ c < v ∧ ¬ v < -c) → max (-c) (min c v) = v) := by
  refine ⟨⟨not_lt.mpr (max_le (by linarith) (min_le_left _ _)),
    not_lt.mpr (le_max_left _ _)⟩, ?_⟩
  rintro ⟨h1, h2⟩
  rw [min_eq_right (not_lt.mp h1), max_eq_right (not_lt.mp h2)]

/-- A call of `cap_vel` with `vel.x` outside `[-400, 400]` clamps `vel.x` only. -/
theorem cap_vel_x_out (pos acc : vector3d ℝ) (x y z : ℝ) (h : 400 < x ∨ x < -400) :
    cap_vel ⟨pos, ⟨x, y, z⟩, acc⟩ = ⟨pos, ⟨max (-400) (min 400 x), y, z⟩, acc⟩ := by
  rcases h with h | h
  · have hm : max (-400) (min 400 x) = 400 := by
      rw [min_eq_left h.le, max_eq_right (by norm_num)]
    rw [hm]
    simp [cap_vel, X_VEL_CAP, h]
  · have hn : ¬ 400 < x := by
      rw [not_lt]
      linarith
    have hm : max (-400) (min 400 x) = -400 := by
      rw [min_eq_right (not_lt.mp hn), max_eq_left h.le]
    rw [hm]
    simp [cap_vel, X_VEL_CAP, h, hn]

/-- A call of `cap_vel` with `vel.x` inside and `vel.y` outside `[-400, 400]` clamps `vel.y`
only. -/
theorem cap_vel_y_out (pos acc : vector3d ℝ) (x y z : ℝ) (hx : ¬ 400 < x ∧ ¬ x < -400)
    (h : 400 < y ∨ y < -400) :
    cap_vel ⟨pos, ⟨x, y, z⟩, acc⟩ = ⟨pos, ⟨x, max (-400) (min 400 y), z⟩, acc⟩ := by
  rcases h with h | h
  · have hm : max (-400) (min 400 y) = 400 := by
      rw [min_eq_left h.le, max_eq_right (by norm_num)]
    rw [hm]
    simp [cap_vel, X_VEL_CAP, Y_VEL_CAP, hx.1, hx.2, h]
  · have hn : ¬ 400 < y := by
      rw [not_lt]
      linarith
    have hm : max (-400) (min 400 y) = -400 := by
      rw [min_eq_right (not_lt.mp hn), max_eq_left h.le]
    rw [hm]
    simp [cap_vel, X_VEL_CAP, Y_VEL_CAP, hx.1, hx.2, h, hn]

/-- A call of `cap_vel` with `vel.x` and `vel.y` inside `[-400, 400]` clamps `vel.z` to
`[-5, 5]`. -/
theorem cap_vel_xy_in (pos acc : vector3d ℝ) (x y z : ℝ) (hx : ¬ 400 < x ∧ ¬ x < -400)
    (hy : ¬ 400 < y ∧ ¬ y < -400) :
    cap_vel ⟨pos, ⟨x, y, z⟩, acc⟩ = ⟨pos, ⟨x, y, max (-5) (min 5 z)⟩, acc⟩ := by
  rcases lt_or_le 5 z with h | h
  · have hm : max (-5) (min 5 z) = 5 := by
      rw [min_eq_left h.le, max_eq_right (by norm_num)]
    rw [hm]
    simp [cap_vel, X_VEL_CAP, Y_VEL_CAP, Z_VEL_CAP, hx.1, hx.2, hy.1, hy.2, h]
  · have hn : ¬ 5 < z := not_lt.mpr h
    rcases lt_or_le z (-5) with h2 | h2
    · have hm : max (-5) (min 5 z) = -5 := by
        rw [min_eq_right h, max_eq_left h2.le]
      rw [hm]
      simp [cap_vel, X_VEL_CAP, Y_VEL_CAP, Z_VEL_CAP, hx.1, hx.2, hy.1, hy.2, hn, h2]
    · have hn2 : ¬ z < -5 := not_lt.mpr h2
      have hm : max (-5) (min 5 z) = z := by
        rw [min_eq_right h, max_eq_right h2]
      rw [hm]
      simp [cap_vel, X_VEL_CAP, Y_VEL_CAP, Z_VEL_CAP, hx.1, hx.2, hy.1, hy.2, hn, hn2]

/-- Three calls of `cap_vel` clamp the three velocity components. -/
theorem cap_vel_thrice (e : entity ℝ) :
    cap_vel (cap_vel (cap_vel e)) =
      ⟨e.pos, ⟨max (-400) (min 400 e.vel.x), max (-400) (min 400 e.vel.y),
        max (-5) (min 5 e.vel.z)⟩, e.acc⟩ := by
  rcases e with ⟨pos, ⟨x, y, z⟩, acc⟩
  simp only
  obtain ⟨hcx, hcxid⟩ := clamp_facts 400 x (by norm_num)
  obtain ⟨hcy, hcyid⟩ := clamp_facts 400 y (by norm_num)
  obtain ⟨hcz, _⟩ := clamp_facts 5 z (by norm_num)
  have hczid := (clamp_facts 5 (max (-5) (min 5 z)) (by norm_num)).2 hcz
  by_cases hxo : 400 < x ∨ x < -400
  · rw [cap_vel_x_out pos acc x y z hxo]
    by_cases hyo : 400 < y ∨ y < -400
    · rw [cap_vel_y_out pos acc _ y z hcx hyo, cap_vel_xy_in pos acc _ _ z hcx hcy]
    · have hy : ¬ 400 < y ∧ ¬ y < -400 := not_or.mp hyo
      rw [cap_vel_xy_in pos acc _ y z hcx hy, cap_vel_xy_in pos acc _ y _ hcx hy, hczid,
        hcyid hy]
  · have hx : ¬ 400 < x ∧ ¬ x < -400 := not_or.mp hxo
    rw [hcxid hx]
    by_cases hyo : 400 < y ∨ y < -400
    · rw [cap_vel_y_out pos acc x y z hx hyo, cap_vel_xy_in pos acc x _ z hx hcy,
        cap_vel_xy_in pos acc x _ _ hx hcy, hczid]
    · have hy : ¬ 400 < y ∧ ¬ y < -400 := not_or.mp hyo
      rw [cap_vel_xy_in pos acc x y z hx hy, cap_vel_xy_in pos acc x y _ hx hy,
        cap_vel_xy_in pos acc x y _ hx hy, hczid, hczid, hcyid hy]

/-- C18: with `dt = 0`, `entity::act` leaves `pos`, `vel` and `acc` unchanged, whatever the
acceleration, and `projectile::act` leaves the projectile's entity and its accumulated
distance unchanged. -/
theorem act_zero_dt :
    (∀ e : entity ℝ, e.act 0 = e) ∧ (∀ p : projectile ℝ, p.act Real.sqrt 0 = p) := by
  constructor
  · intro e
    rcases e with ⟨⟨px, py, pz⟩, ⟨vx, vy, vz⟩, acc⟩
    simp [entity.act, vector3d.add, vector3d.scale]
  · intro p
    rcases p with ⟨⟨⟨px, py, pz⟩, ⟨vx, vy, vz⟩, acc⟩, d⟩
    simp [projectile.act, entity.act, vector3d.add, vector3d.scale, vector3d.mag]

/-- C19 (fails on the code): the two world points that `render_projectile` passes to
`cart2sdl` are `pos + rotate((-5,0), h)` and `pos + rotate((0,0), h)`, the latter being
`pos` itself; for a projectile at the origin with heading `0` they are `(-5,0,0)` and
`(0,0,0)`, not `(5,0,0)` and `(-5,0,0)`. The ship's points `t` and `b` of `render_player`
are `pos + rotate((5,0), h)` and `pos + rotate((-5,0), h)`. -/
theorem render_projectile_endpoints :
    (∀ pos : vector3d ℝ,
      render_projectile_points Real.cos Real.sin pos =
        (pos.add ((⟨-5, 0, 0⟩ : vector3d ℝ).rotate Real.cos Real.sin pos.z),
          pos.add ((⟨0, 0, 0⟩ : vector3d ℝ).rotate Real.cos Real.sin pos.z))) ∧
    (∀ pos : vector3d ℝ, (render_projectile_points Real.cos Real.sin pos).2 = pos) ∧
    render_projectile_points Real.cos Real.sin (⟨0, 0, 0⟩ : vector3d ℝ) =
      (⟨-5, 0, 0⟩, ⟨0, 0, 0⟩) ∧
    render_projectile_points Real.cos Real.sin (⟨0, 0, 0⟩ : vector3d ℝ) ≠
      ((⟨0, 0, 0⟩ : vector3d ℝ).add ((⟨5, 0, 0⟩ : vector3d ℝ).rotate Real.cos Real.sin 0),
        (⟨0, 0, 0⟩ : vector3d ℝ).add ((⟨-5, 0, 0⟩ : vector3d ℝ).rotate Real.cos Real.sin 0)) ∧
    (∀ pos : vector3d ℝ,
      (render_player_points Real.cos Real.sin pos).1 =
          pos.add ((⟨5, 0, 0⟩ : vector3d ℝ).rotate Real.cos Real.sin pos.z) ∧
        (render_player_points Real.cos Real.sin pos).2.1 =
          pos.add ((⟨-5, 0, 0⟩ : vector3d ℝ).rotate Real.cos Real.sin pos.z)) := by
  refine ⟨fun pos => rfl, ?_, ?_, ?_, fun pos => ⟨rfl, rfl⟩⟩
  · intro pos
    rcases pos with ⟨x, y, z⟩
    simp [render_projectile_points, vector3d.zero, vector3d.add, vector3d.rotate]
  · simp [render_projectile_points, vector3d.zero, vector3d.add, vector3d.rotate]
  · simp [render_projectile_points, vector3d.zero, vector3d.add, vector3d.rotate]

/-- C20: three calls of `cap_vel` in succession clamp each velocity component to its range
(`vel.x` and `vel.y` to `[-400, 400]`, `vel.z` to `[-5, 5]`), a fourth call changes
nothing, and a single call never changes `pos` or `acc` and changes at most one velocity
component. -/
theorem cap_vel_iterated (e : entity ℝ) :
    cap_vel (cap_vel (cap_vel e)) =
        ⟨e.pos, ⟨max (-400) (min 400 e.vel.x), max (-400) (min 400 e.vel.y),
          max (-5) (min 5 e.vel.z)⟩, e.acc⟩ ∧
      cap_vel (cap_vel (cap_vel (cap_vel e))) = cap_vel (cap_vel (cap_vel e)) ∧
      (cap_vel e).pos = e.pos ∧ (cap_vel e).acc = e.acc ∧
      (((cap_vel e).vel.y = e.vel.y ∧ (cap_vel e).vel.z = e.vel.z) ∨
        ((cap_vel e).vel.x = e.vel.x ∧ (cap_vel e).vel.z = e.vel.z) ∨
        ((cap_vel e).vel.x = e.vel.x ∧ (cap_vel e).vel.y = e.vel.y)) := by
  have h3 := cap_vel_thrice e
  refine ⟨h3, ?_, ?_, ?_, ?_⟩
  · rw [h3]
    obtain ⟨hcx, _⟩ := clamp_facts 400 e.vel.x (by norm_num)
    obtain ⟨hcy, _⟩ := clamp_facts 400 e.vel.y (by norm_num)
    obtain ⟨hcz, _⟩ := clamp_facts 5 e.vel.z (by norm_num)
    rw [cap_vel_xy_in _ _ _ _ _ hcx hcy,
      (clamp_facts 5 (max (-5) (min 5 e.vel.z)) (by norm_num)).2 hcz]
  · unfold cap_vel
    split_ifs <;> rfl
  · unfold cap_vel
    split_ifs <;> rfl
  · unfold cap_vel
    split_ifs <;> simp

end TriangleShooter
